import Mathlib

/-!
# Verification of the ottoneu draft assistant's valuation pipeline

A shallow embedding, in Lean 4, of the data-handling and valuation code of
the `ottoneu-draft-assistant` repository, together with theorems settling
the specification claims about it.

Conventions of the embedding:
* pandas numeric cells are `Option ℚ` (`none` is NaN/NULL);
* a pandas `Series.round(0)` is `roundHalfEven` (IEEE/NumPy half-to-even);
* `sort_values(ascending=False)` on a column of values is modelled by
  `List.insertionSort` with the reversed order: on a list of rational
  values every correct sort returns the same list, so the choice of
  algorithm is immaterial;
* Python `iloc` indexing (negative indices count from the end) is `pyIloc`;
* SQL tables are lists of records; SQL `UPDATE ... WHERE` is a `List.map`
  guarded by the `WHERE` predicate.
-/

/-- Round half to even, the rounding used by `pandas.Series.round(0)`
(IEEE 754 / NumPy rounding). -/
def roundHalfEven (q : ℚ) : ℤ :=
  let f := ⌊q⌋
  let frac := q - (f : ℚ)
  if frac < 1/2 then f
  else if 1/2 < frac then f + 1
  else if f % 2 = 0 then f else f + 1

/-- Python list/`iloc` index resolution: a non-negative index is used as is,
a negative index counts from the end of a sequence of length `n`. -/
def pyIloc (n : ℕ) (i : ℤ) : ℕ :=
  if 0 ≤ i then i.toNat else ((n : ℤ) + i).toNat

/-- `sort_values(ascending=False)` over the non-null values of a column. -/
def sortDesc (l : List ℚ) : List ℚ :=
  List.insertionSort (fun a b => b ≤ a) l

/- ## Valuation engine (`src/valuation/dollar_value.py`) -/

/-- League configuration after the `int(...)` coercions performed by
`calculate_dollar_values` (`DEFAULT_CONFIG` overridden by the stored
key/value config). -/
structure LeagueConfig where
  num_teams : ℕ
  budget_per_team : ℤ
  hitter_budget_pct : ℤ
  hitters_per_team : ℕ
  pitchers_per_team : ℕ
deriving Repr, DecidableEq

/-- `DEFAULT_CONFIG` of `src/valuation/dollar_value.py`. -/
def DEFAULT_CONFIG : LeagueConfig :=
  { num_teams := 12
    budget_per_team := 400
    hitter_budget_pct := 65
    hitters_per_team := 20
    pitchers_per_team := 20 }

/-- `total_budget = num_teams * budget_per_team`. -/
def total_budget (cfg : LeagueConfig) : ℚ :=
  (cfg.num_teams : ℚ) * (cfg.budget_per_team : ℚ)

/-- `hitter_budget = total_budget * hitter_budget_pct / 100`. -/
def hitter_budget (cfg : LeagueConfig) : ℚ :=
  total_budget cfg * ((cfg.hitter_budget_pct : ℚ) / 100)

/-- `pitcher_budget = total_budget * (1 - hitter_budget_pct / 100)`. -/
def pitcher_budget (cfg : LeagueConfig) : ℚ :=
  total_budget cfg * (1 - (cfg.hitter_budget_pct : ℚ) / 100)

/-- One row of a population table after `_calc_values` ran: the `proj_fpts`
cell together with the three valuation-state columns it populates. -/
structure ValuedPlayer where
  proj_fpts : Option ℚ
  dollar_value : Option ℚ
  predicted_price : Option ℚ
  surplus_value : Option ℚ
deriving Repr, DecidableEq

/-- `_calc_values` lines 68–71: the replacement value drawn from the
descending-sorted non-null projections.  `sorted_fpts.iloc[replacement_rank - 1]`
when the pool holds at least `replacement_rank` ranked players, otherwise
`sorted_fpts.iloc[-1]`. -/
def replacement_fpts (sorted_fpts : List ℚ) (replacement_rank : ℕ) : ℚ :=
  if replacement_rank ≤ sorted_fpts.length then
    sorted_fpts.getD (pyIloc sorted_fpts.length ((replacement_rank : ℤ) - 1)) 0
  else
    sorted_fpts.getD (pyIloc sorted_fpts.length (-1)) 0

/-- `_calc_values` line 74: `(df["proj_fpts"] - replacement_fpts).clip(lower=0)`,
with NaN propagating through subtraction and clip. -/
def marginal_fpts (repl : ℚ) (p : Option ℚ) : Option ℚ :=
  p.map (fun q => max 0 (q - repl))

/-- `_calc_values` line 76: `df["_marginal_fpts"].sum()` (pandas `sum`
skips NaN). -/
def total_marginal (repl : ℚ) (proj : List (Option ℚ)) : ℚ :=
  ((proj.map (marginal_fpts repl)).filterMap id).sum

/-- The `dollar_value` cell `_calc_values` computes for one row, given the
replacement value and the pool totals (lines 78–90): in the
`total_marginal > 0` branch, `round` then clip to a minimum of 1 where the
marginal is positive and exactly 0 where it is zero; otherwise 0 for the
whole pool; NaN wherever `proj_fpts` is NaN. -/
def dollar_value_cell (repl total avail : ℚ) (p : Option ℚ) : Option ℚ :=
  if 0 < total then
    (marginal_fpts repl p).map (fun m =>
      if 0 < m then max 1 ((roundHalfEven (m * (avail / total)) : ℤ) : ℚ) else 0)
  else
    (marginal_fpts repl p).map (fun _ => 0)

/-- One output row of `_calc_values` (lines 92–96): `dollar_value` as
computed by `dollar_value_cell`, `predicted_price = dollar_value`, and
`surplus_value = 0` where `dollar_value` is non-null, NaN where it is
null. -/
def valued_row (repl total avail : ℚ) (p : Option ℚ) : ValuedPlayer :=
  ⟨p, dollar_value_cell repl total avail p,
      dollar_value_cell repl total avail p,
      (dollar_value_cell repl total avail p).map (fun _ => 0)⟩

/-- `_calc_values` (`src/valuation/dollar_value.py`, lines 43–99) on a
population whose table has a `proj_fpts` column, represented by the list of
that column's cells.  Returns one `ValuedPlayer` per input row, in order.
When the pool has no ranked player at all (lines 62–66) every valuation
column is NaN. -/
def calc_values (proj : List (Option ℚ)) (num_teams players_per_team : ℕ)
    (available_budget : ℚ) : List ValuedPlayer :=
  if (sortDesc (proj.filterMap id)).length = 0 then
    proj.map (fun p => ⟨p, none, none, none⟩)
  else
    proj.map (valued_row
      (replacement_fpts (sortDesc (proj.filterMap id)) (num_teams * players_per_team))
      (total_marginal
        (replacement_fpts (sortDesc (proj.filterMap id)) (num_teams * players_per_team))
        proj)
      available_budget)

/-- `calculate_dollar_values` (`src/valuation/dollar_value.py`, lines 16–40):
split the total budget by the hitter share and value each population
independently. -/
def calculate_dollar_values (hitters pitchers : List (Option ℚ))
    (cfg : LeagueConfig) : List ValuedPlayer × List ValuedPlayer :=
  (calc_values hitters cfg.num_teams cfg.hitters_per_team (hitter_budget cfg),
   calc_values pitchers cfg.num_teams cfg.pitchers_per_team (pitcher_budget cfg))

/- ## Supporting lemmas -/

lemma zip_map_self {α β : Type} (f : α → β) :
    ∀ (l : List α), ∀ pv ∈ l.zip (l.map f), pv.2 = f pv.1 := by
  intro l
  induction l with
  | nil => simp
  | cons a t ih =>
    intro pv hpv
    simp only [List.map_cons, List.zip_cons_cons, List.mem_cons] at hpv
    rcases hpv with h | h
    · subst h; rfl
    · exact ih pv h

lemma getD_last_le_of_sortedDesc :
    ∀ (l : List ℚ), l.Sorted (fun a b : ℚ => b ≤ a) →
      ∀ x ∈ l, l.getD (l.length - 1) 0 ≤ x := by
  intro l
  induction l with
  | nil => simp
  | cons a t ih =>
    intro hs x hx
    rcases List.sorted_cons.mp hs with ⟨ha, ht⟩
    rcases List.mem_cons.mp hx with rfl | hx
    · cases t with
      | nil => simp
      | cons b u =>
        have hlt : (b :: u).length - 1 < (b :: u).length := by simp
        have hmem : (b :: u).getD ((b :: u).length - 1) 0 ∈ b :: u := by
          rw [List.getD_eq_getElem _ _ hlt]
          exact List.getElem_mem hlt
        calc (x :: b :: u).getD ((x :: b :: u).length - 1) 0
            = (b :: u).getD ((b :: u).length - 1) 0 := by simp
          _ ≤ x := ha _ hmem
    · cases t with
      | nil => simp at hx
      | cons b u =>
        calc (a :: b :: u).getD ((a :: b :: u).length - 1) 0
            = (b :: u).getD ((b :: u).length - 1) 0 := by simp
          _ ≤ x := ih ht x hx

lemma sortDesc_sorted (l : List ℚ) :
    (sortDesc l).Sorted (fun a b : ℚ => b ≤ a) := by
  haveI : IsTotal ℚ (fun a b : ℚ => b ≤ a) := ⟨fun a b => le_total b a⟩
  haveI : IsTrans ℚ (fun a b : ℚ => b ≤ a) := ⟨fun _ _ _ hab hbc => le_trans hbc hab⟩
  exact List.sorted_insertionSort _ l

lemma abs_roundHalfEven_sub (q : ℚ) : |((roundHalfEven q : ℤ) : ℚ) - q| ≤ 1/2 := by
  have h0 : (0:ℚ) ≤ q - (⌊q⌋ : ℚ) := by
    have hf := Int.fract_nonneg q
    unfold Int.fract at hf
    exact hf
  have h1 : q - (⌊q⌋ : ℚ) < 1 := by
    have hf := Int.fract_lt_one q
    unfold Int.fract at hf
    exact hf
  rw [roundHalfEven]
  by_cases hlt : q - (⌊q⌋ : ℚ) < 1/2
  · rw [if_pos hlt]
    rw [abs_le]
    constructor <;> linarith
  · rw [if_neg hlt]
    by_cases hgt : (1:ℚ)/2 < q - (⌊q⌋ : ℚ)
    · rw [if_pos hgt]
      rw [abs_le]
      push_cast
      constructor <;> linarith
    · have heq : q - (⌊q⌋ : ℚ) = 1/2 := le_antisymm (not_lt.mp hgt) (not_lt.mp hlt)
      rw [if_neg hgt]
      by_cases hev : ⌊q⌋ % 2 = 0
      · rw [if_pos hev, abs_le]
        constructor <;> linarith
      · rw [if_neg hev, abs_le]
        push_cast
        constructor <;> linarith

lemma abs_clip_roundHalfEven (x : ℚ) (hx : 0 < x) :
    |max 1 ((roundHalfEven x : ℤ) : ℚ) - x| ≤ 1 := by
  have h := abs_roundHalfEven_sub x
  rcases le_or_lt 1 ((roundHalfEven x : ℤ) : ℚ) with h1 | h1
  · rw [max_eq_right h1]
    calc |((roundHalfEven x : ℤ) : ℚ) - x| ≤ 1/2 := h
      _ ≤ 1 := by norm_num
  · have hz : roundHalfEven x ≤ 0 := by
      have : roundHalfEven x < 1 := by exact_mod_cast h1
      omega
    have h0 : ((roundHalfEven x : ℤ) : ℚ) = 0 := by
      rw [abs_le] at h
      by_contra hne0
      have hn : roundHalfEven x < 0 := lt_of_le_of_ne hz (by
        intro hc
        exact hne0 (by rw [hc]; norm_num))
      have hle : roundHalfEven x ≤ -1 := by omega
      have hle' : ((roundHalfEven x : ℤ) : ℚ) ≤ -1 := by exact_mod_cast hle
      linarith [h.1]
    rw [max_eq_left (by rw [h0]; norm_num)]
    rw [h0, abs_le] at h
    rw [abs_le]
    constructor <;> linarith [h.1, h.2]

lemma sum_abs_bound (v e : ℚ → ℚ) :
    ∀ (L : List ℚ), (∀ q ∈ L, |v q - e q| ≤ 1) →
      |(L.map v).sum - (L.map e).sum| ≤ (L.length : ℚ) := by
  intro L
  induction L with
  | nil => simp
  | cons a t ih =>
    intro h
    have ha := h a (List.mem_cons_self a t)
    have ht := ih (fun q hq => h q (List.mem_cons_of_mem a hq))
    simp only [List.map_cons, List.sum_cons, List.length_cons]
    have tri : |v a + (t.map v).sum - (e a + (t.map e).sum)| ≤
        |v a - e a| + |(t.map v).sum - (t.map e).sum| := by
      have heq : v a + (t.map v).sum - (e a + (t.map e).sum) =
          (v a - e a) + ((t.map v).sum - (t.map e).sum) := by ring
      rw [heq]
      exact abs_add _ _
    calc |v a + (t.map v).sum - (e a + (t.map e).sum)| ≤
        |v a - e a| + |(t.map v).sum - (t.map e).sum| := tri
      _ ≤ 1 + (t.length : ℚ) := add_le_add ha ht
      _ = ((t.length + 1 : ℕ) : ℚ) := by push_cast; ring

lemma filterMap_option_map {β : Type} (h : Option ℚ → Option β) (g : ℚ → β)
    (hnone : h none = none) (hsome : ∀ q, h (some q) = some (g q)) :
    ∀ (l : List (Option ℚ)), l.filterMap h = (l.filterMap id).map g := by
  intro l
  induction l with
  | nil => simp
  | cons a t ih =>
    cases a with
    | none => simp [List.filterMap_cons, hnone, ih]
    | some q => simp [List.filterMap_cons, hsome, ih]

lemma calc_values_sum_close (proj : List (Option ℚ)) (num_teams players_per_team : ℕ)
    (avail repl total : ℚ)
    (hav : 0 < avail)
    (hrepl : repl = replacement_fpts (sortDesc (proj.filterMap id))
      (num_teams * players_per_team))
    (htot : total = total_marginal repl proj)
    (htpos : 0 < total) :
    |((calc_values proj num_teams players_per_team avail).filterMap
        (fun v => v.dollar_value)).sum - avail| ≤ ((proj.filterMap id).length : ℚ) := by
  have htot' : total = ((proj.filterMap id).map (fun q => max 0 (q - repl))).sum := by
    rw [htot, total_marginal, List.filterMap_map]
    have hid : (id ∘ marginal_fpts repl) = marginal_fpts repl := by
      funext p; rfl
    rw [hid, filterMap_option_map (marginal_fpts repl) (fun q => max 0 (q - repl))
      rfl (fun q => rfl)]
  have hne : proj.filterMap id ≠ [] := by
    intro h
    rw [htot', h] at htpos
    simp at htpos
  have hlen : ¬ ((sortDesc (proj.filterMap id)).length = 0) := by
    simp only [ne_eq, sortDesc, List.length_insertionSort, List.length_eq_zero]
    exact hne
  have htpos' : 0 < total_marginal repl proj := by rw [← htot]; exact htpos
  have hout : (calc_values proj num_teams players_per_team avail).filterMap
      (fun v => v.dollar_value) =
      (proj.filterMap id).map (fun q =>
        if 0 < max 0 (q - repl) then
          max 1 ((roundHalfEven (max 0 (q - repl) * (avail / total)) : ℤ) : ℚ)
        else 0) := by
    rw [calc_values, if_neg hlen, ← hrepl, List.filterMap_map]
    have hcomp : ((fun v : ValuedPlayer => v.dollar_value) ∘
        valued_row repl (total_marginal repl proj) avail) =
        dollar_value_cell repl (total_marginal repl proj) avail := by
      funext p; rfl
    rw [hcomp, ← htot]
    apply filterMap_option_map
    · rw [dollar_value_cell, if_pos htpos]
      rfl
    · intro q
      rw [dollar_value_cell, if_pos htpos]
      rfl
  rw [hout]
  have hclose : ∀ q ∈ proj.filterMap id,
      |(if 0 < max 0 (q - repl) then
          max 1 ((roundHalfEven (max 0 (q - repl) * (avail / total)) : ℤ) : ℚ)
        else 0) - max 0 (q - repl) * (avail / total)| ≤ 1 := by
    intro q _
    by_cases hm : 0 < max 0 (q - repl)
    · rw [if_pos hm]
      exact abs_clip_roundHalfEven _ (mul_pos hm (div_pos hav htpos))
    · have hm0 : max 0 (q - repl) = 0 :=
        le_antisymm (not_lt.mp hm) (le_max_left 0 _)
      rw [if_neg hm, hm0]
      norm_num
  have hexact : ((proj.filterMap id).map
      (fun q => max 0 (q - repl) * (avail / total))).sum = avail := by
    rw [List.sum_map_mul_right, ← htot']
    field_simp
  calc |((proj.filterMap id).map (fun q =>
        if 0 < max 0 (q - repl) then
          max 1 ((roundHalfEven (max 0 (q - repl) * (avail / total)) : ℤ) : ℚ)
        else 0)).sum - avail|
      = |((proj.filterMap id).map (fun q =>
          if 0 < max 0 (q - repl) then
            max 1 ((roundHalfEven (max 0 (q - repl) * (avail / total)) : ℤ) : ℚ)
          else 0)).sum -
        ((proj.filterMap id).map
          (fun q => max 0 (q - repl) * (avail / total))).sum| := by
        rw [hexact]
    _ ≤ ((proj.filterMap id).length : ℚ) := sum_abs_bound _ _ _ hclose

/- ## Claim theorems: valuation engine -/

/-- C1: after the valuation engine runs on a population with a `proj_fpts`
column and at least one non-null projection, each player with positive
marginal points has `dollar_value = round(marginal × pool_budget / total_marginal)`
floored to a minimum of 1; each player with zero marginal points has
`dollar_value` exactly 0; each player with a null projection has null
`dollar_value`; and when the pool's total marginal points is zero every
projected player's `dollar_value` is 0 (no error: the function is total). -/
theorem claim_C1_dollar_value_assignment (proj : List (Option ℚ))
    (num_teams players_per_team : ℕ) (avail : ℚ) (repl total : ℚ)
    (hne : proj.filterMap id ≠ [])
    (hrepl : repl = replacement_fpts (sortDesc (proj.filterMap id))
      (num_teams * players_per_team))
    (htot : total = total_marginal repl proj) :
    ∀ pv ∈ proj.zip (calc_values proj num_teams players_per_team avail),
      pv.2.proj_fpts = pv.1 ∧
      (pv.1 = none → pv.2.dollar_value = none) ∧
      ∀ q, pv.1 = some q →
        (0 < total →
          (0 < max 0 (q - repl) →
            pv.2.dollar_value =
              some (max 1 ((roundHalfEven (max 0 (q - repl) * avail / total) : ℤ) : ℚ))) ∧
          (max 0 (q - repl) = 0 → pv.2.dollar_value = some 0)) ∧
        (total = 0 → pv.2.dollar_value = some 0) := by
  intro pv hpv
  have hlen : ¬ ((sortDesc (proj.filterMap id)).length = 0) := by
    simp only [ne_eq, sortDesc, List.length_insertionSort, List.length_eq_zero]
    exact hne
  rw [calc_values, if_neg hlen] at hpv
  have h2 := zip_map_self _ proj pv hpv
  subst hrepl htot
  refine ⟨by rw [h2]; rfl, ?_, ?_⟩
  · intro h1
    rw [h2, h1]
    simp [valued_row, dollar_value_cell, marginal_fpts]
  · intro q hq
    constructor
    · intro hpos
      constructor
      · intro hm
        rw [h2, hq]
        simp only [valued_row, dollar_value_cell, if_pos hpos, marginal_fpts,
          Option.map_some']
        rw [if_pos hm, mul_div_assoc]
      · intro hm
        rw [h2, hq]
        simp only [valued_row, dollar_value_cell, if_pos hpos, marginal_fpts,
          Option.map_some']
        rw [if_neg (by rw [hm]; exact lt_irrefl 0)]
    · intro h0
      rw [h2, hq]
      simp only [valued_row, dollar_value_cell, h0, lt_irrefl, if_false,
        marginal_fpts, Option.map_some']

/-- Witness for C1 at a concrete pool: three players with projections 10,
5 and NaN (one team, two slots, pool budget 100); the theorem is applied
to the top player, whose dollar value is the whole budget. -/
theorem claim_C1_dollar_value_assignment_witness :
    (⟨some 10, some 100, some 100, some 0⟩ : ValuedPlayer).proj_fpts =
      (some 10 : Option ℚ) ∧
    ((some 10 : Option ℚ) = none →
      (⟨some 10, some 100, some 100, some 0⟩ : ValuedPlayer).dollar_value = none) ∧
    (∀ q, (some 10 : Option ℚ) = some q →
      ((0:ℚ) < 5 →
        (0 < max 0 (q - 5) →
          (⟨some 10, some 100, some 100, some 0⟩ : ValuedPlayer).dollar_value =
            some (max 1 ((roundHalfEven (max 0 (q - 5) * 100 / 5) : ℤ) : ℚ))) ∧
        (max 0 (q - 5) = 0 →
          (⟨some 10, some 100, some 100, some 0⟩ : ValuedPlayer).dollar_value =
            some 0)) ∧
      ((5:ℚ) = 0 →
        (⟨some 10, some 100, some 100, some 0⟩ : ValuedPlayer).dollar_value =
          some 0)) := by
  have hcv : calc_values [some 10, some 5, none] 1 2 100 =
      [⟨some 10, some 100, some 100, some 0⟩,
       ⟨some 5, some 0, some 0, some 0⟩,
       ⟨none, none, none, none⟩] := by
    norm_num [calc_values, sortDesc, List.insertionSort, List.orderedInsert,
      replacement_fpts, pyIloc, total_marginal, marginal_fpts, dollar_value_cell,
      valued_row, roundHalfEven, List.filterMap_cons, Int.floor_intCast]
  have h := claim_C1_dollar_value_assignment [some 10, some 5, none] 1 2 100 5 5
    (by decide)
    (by norm_num [replacement_fpts, sortDesc, List.insertionSort,
      List.orderedInsert, pyIloc, List.filterMap_cons])
    (by norm_num [total_marginal, marginal_fpts, List.filterMap_cons])
  have hmem : ((some 10 : Option ℚ),
      (⟨some 10, some 100, some 100, some 0⟩ : ValuedPlayer)) ∈
      ([some 10, some 5, none] : List (Option ℚ)).zip
        (calc_values [some 10, some 5, none] 1 2 100) := by
    rw [hcv]
    decide
  exact h _ hmem

/-- C2: with at least one non-null projection, `replacement_points` is the
projection at rank `team_count × slots_per_team` (1-indexed over the
non-null projections sorted descending) when the pool holds at least that
many ranked players, and otherwise the lowest-ranked player's value (which
is then a lower bound for the whole pool); every projected player's
marginal is `max 0 (projected − replacement)` and hence non-negative; a
pool smaller than the replacement rank is handled by the same total
function, not an error. -/
theorem claim_C2_replacement_level (proj : List (Option ℚ))
    (num_teams players_per_team : ℕ) (rank : ℕ) (repl : ℚ)
    (hne : proj.filterMap id ≠ [])
    (hrankdef : rank = num_teams * players_per_team)
    (hrank : 0 < rank)
    (hrepl : repl = replacement_fpts (sortDesc (proj.filterMap id)) rank) :
    (rank ≤ (sortDesc (proj.filterMap id)).length →
      repl = (sortDesc (proj.filterMap id)).getD (rank - 1) 0) ∧
    ((sortDesc (proj.filterMap id)).length < rank →
      repl = (sortDesc (proj.filterMap id)).getD
          ((sortDesc (proj.filterMap id)).length - 1) 0 ∧
        ∀ q ∈ proj.filterMap id, repl ≤ q) ∧
    ∀ p ∈ proj, ∀ q, p = some q →
      marginal_fpts repl p = some (max 0 (q - repl)) ∧ 0 ≤ max 0 (q - repl) := by
  refine ⟨?_, ?_, ?_⟩
  · intro hle
    rw [hrepl, replacement_fpts, if_pos hle, pyIloc, if_pos (by omega)]
    congr 1
    omega
  · intro hlt
    have hget : repl = (sortDesc (proj.filterMap id)).getD
        ((sortDesc (proj.filterMap id)).length - 1) 0 := by
      rw [hrepl, replacement_fpts, if_neg (by omega), pyIloc, if_neg (by omega)]
      congr 1
      have hl : (sortDesc (proj.filterMap id)).length ≠ 0 := by
        simp only [ne_eq, sortDesc, List.length_insertionSort, List.length_eq_zero]
        exact hne
      omega
    refine ⟨hget, ?_⟩
    intro q hq
    have hmem : q ∈ sortDesc (proj.filterMap id) :=
      ((List.perm_insertionSort _ _).mem_iff).mpr hq
    rw [hget]
    exact getD_last_le_of_sortedDesc _ (sortDesc_sorted _) q hmem
  · intro p _ q hq
    subst hq
    exact ⟨rfl, le_max_left 0 _⟩

/-- Witness for C2 at a concrete pool: projections 10, 5 and NaN, with
replacement rank 2 (one team, two slots). -/
theorem claim_C2_replacement_level_witness :
    ((2 ≤ (sortDesc (([some 10, some 5, none] : List (Option ℚ)).filterMap id)).length →
      (5:ℚ) = (sortDesc (([some 10, some 5, none] : List (Option ℚ)).filterMap id)).getD (2 - 1) 0) ∧
    ((sortDesc (([some 10, some 5, none] : List (Option ℚ)).filterMap id)).length < 2 →
      (5:ℚ) = (sortDesc (([some 10, some 5, none] : List (Option ℚ)).filterMap id)).getD
          ((sortDesc (([some 10, some 5, none] : List (Option ℚ)).filterMap id)).length - 1) 0 ∧
        ∀ q ∈ ([some 10, some 5, none] : List (Option ℚ)).filterMap id, (5:ℚ) ≤ q) ∧
    ∀ p ∈ ([some 10, some 5, none] : List (Option ℚ)), ∀ q, p = some q →
      marginal_fpts 5 p = some (max 0 (q - 5)) ∧ 0 ≤ max 0 (q - 5)) :=
  claim_C2_replacement_level [some 10, some 5, none] 1 2 2 5 (by decide) rfl (by decide)
    (by norm_num [replacement_fpts, sortDesc, List.insertionSort, List.orderedInsert,
      pyIloc, List.filterMap_cons])

/-- C3, counterexample to the claim as stated: a pool holding a single
player with no projection satisfies "every projected player has strictly
positive marginal points" vacuously, yet the sum of assigned dollar values
is 0, not the pool budget (3120 under the default configuration), so it is
not within any rounding tolerance of the budget.  (For nonempty projected
pools the claim is instead vacuous: the player at the replacement rank —
or the lowest-ranked player when the pool is smaller than the rank — always
has marginal exactly 0, so a pool with no zero-marginal player does not
occur.) -/
theorem claim_C3_counterexample :
    (∀ q ∈ ([none] : List (Option ℚ)).filterMap id,
      0 < max 0 (q - replacement_fpts (sortDesc (([none] : List (Option ℚ)).filterMap id))
        (DEFAULT_CONFIG.num_teams * DEFAULT_CONFIG.hitters_per_team))) ∧
    ¬ (|((calculate_dollar_values [none] [none] DEFAULT_CONFIG).1.filterMap
          (fun v => v.dollar_value)).sum - hitter_budget DEFAULT_CONFIG| ≤
        ((([none] : List (Option ℚ)).filterMap id).length : ℚ)) := by
  constructor
  · intro q hq
    simp at hq
  · norm_num [calculate_dollar_values, calc_values, sortDesc, List.insertionSort,
      hitter_budget, total_budget, DEFAULT_CONFIG]

/-- C3 (amended): for every pool whose budget share is positive and whose
total marginal points are positive, the sum of the assigned `dollar_value`
over the pool differs from the configured pool budget (the population's
share of `team_count × budget_per_team`) by at most $1 per projected
player (rounding moves each player's share by at most 1/2, and the $1
minimum by at most a further 1/2; zero-marginal players receive exactly
$0, their exact share). -/
theorem claim_C3_pool_budget_sum (cfg : LeagueConfig)
    (hitters pitchers : List (Option ℚ)) (replH replP : ℚ)
    (hbH : 0 < hitter_budget cfg) (hbP : 0 < pitcher_budget cfg)
    (hreplH : replH = replacement_fpts (sortDesc (hitters.filterMap id))
      (cfg.num_teams * cfg.hitters_per_team))
    (hreplP : replP = replacement_fpts (sortDesc (pitchers.filterMap id))
      (cfg.num_teams * cfg.pitchers_per_team))
    (htposH : 0 < total_marginal replH hitters)
    (htposP : 0 < total_marginal replP pitchers) :
    |((calculate_dollar_values hitters pitchers cfg).1.filterMap
        (fun v => v.dollar_value)).sum - hitter_budget cfg| ≤
      ((hitters.filterMap id).length : ℚ) ∧
    |((calculate_dollar_values hitters pitchers cfg).2.filterMap
        (fun v => v.dollar_value)).sum - pitcher_budget cfg| ≤
      ((pitchers.filterMap id).length : ℚ) :=
  ⟨calc_values_sum_close hitters cfg.num_teams cfg.hitters_per_team _ replH _
      hbH hreplH rfl htposH,
    calc_values_sum_close pitchers cfg.num_teams cfg.pitchers_per_team _ replP _
      hbP hreplP rfl htposP⟩

/-- Witness for the amended C3: one team, $100 budget split 50/50, two
slots per population, both pools holding projections 10 and 5. -/
theorem claim_C3_pool_budget_sum_witness :
    |((calculate_dollar_values [some 10, some 5] [some 10, some 5]
        ⟨1, 100, 50, 2, 2⟩).1.filterMap
        (fun v => v.dollar_value)).sum - hitter_budget ⟨1, 100, 50, 2, 2⟩| ≤
      ((([some 10, some 5] : List (Option ℚ)).filterMap id).length : ℚ) ∧
    |((calculate_dollar_values [some 10, some 5] [some 10, some 5]
        ⟨1, 100, 50, 2, 2⟩).2.filterMap
        (fun v => v.dollar_value)).sum - pitcher_budget ⟨1, 100, 50, 2, 2⟩| ≤
      ((([some 10, some 5] : List (Option ℚ)).filterMap id).length : ℚ) :=
  claim_C3_pool_budget_sum ⟨1, 100, 50, 2, 2⟩ [some 10, some 5] [some 10, some 5] 5 5
    (by norm_num [hitter_budget, total_budget])
    (by norm_num [pitcher_budget, total_budget])
    (by norm_num [replacement_fpts, sortDesc, List.insertionSort, List.orderedInsert,
      pyIloc, List.filterMap_cons])
    (by norm_num [replacement_fpts, sortDesc, List.insertionSort, List.orderedInsert,
      pyIloc, List.filterMap_cons])
    (by norm_num [total_marginal, marginal_fpts, List.filterMap_cons])
    (by norm_num [total_marginal, marginal_fpts, List.filterMap_cons])

/- ## Reconciliation merger (`src/data/merge.py`) -/

/-- A pandas cell: numeric or string content.  `Option Cell` adds NaN. -/
inductive Cell where
  | num : ℚ → Cell
  | str : String → Cell
deriving Repr, DecidableEq

/-- A table row: cells keyed by column name.  A missing key is NaN. -/
abbrev Row := List (String × Option Cell)

/-- A source or population DataFrame: its column list (other than `name`)
and its rows keyed by normalized player name. -/
structure Table where
  cols : List String
  rows : List (String × Row)
deriving Repr, DecidableEq

/-- The cell of row `r` in column `c` (NaN when no entry is present). -/
def getCell (r : Row) (c : String) : Option Cell :=
  (r.lookup c).join

/-- The cell of table `t` in row `n`, column `c` (NaN when the row is
absent). -/
def cellOf (t : Table) (n c : String) : Option Cell :=
  ((t.rows.lookup n).map (fun r => getCell r c)).join

/-- `_dedup` (`src/data/merge.py`, lines 10–12):
`drop_duplicates(subset="name", keep="first")`. -/
def dedupRows : List (String × Row) → List (String × Row)
  | [] => []
  | x :: t => x :: dedupRows (t.filter (fun y => y.1 ≠ x.1))
termination_by l => l.length
decreasing_by
  simp only [List.length_cons]
  exact Nat.lt_succ_of_le (List.length_filter_le _ _)

/-- `_dedup` applied to a whole table. -/
def dedupTable (t : Table) : Table :=
  ⟨t.cols, dedupRows t.rows⟩

/-- `_merge_pair` line 24: the columns of `other` not already in `base`. -/
def new_cols (base other : Table) : List String :=
  other.cols.filter (fun c => ¬ base.cols.contains c)

/-- The row the outer join produces for a name present in `base`: the base
cells followed by the new columns taken from `other` (NaN when the name is
absent from `other`). -/
def join_left_row (base other : Table) (nr : String × Row) : String × Row :=
  (nr.1, base.cols.map (fun c => (c, getCell nr.2 c)) ++
    (new_cols base other).map (fun c => (c, cellOf other nr.1 c)))

/-- The row the outer join produces for a name present only in `other`:
NaN in every base column, the new columns taken from `other`. -/
def join_right_row (base other : Table) (nr : String × Row) : String × Row :=
  (nr.1, base.cols.map (fun c => (c, (none : Option Cell))) ++
    (new_cols base other).map (fun c => (c, getCell nr.2 c)))

/-- `_merge_pair` lines 32–37: fill gaps in the metadata columns
(`ottoneu_team`, `salary`) from `other` wherever the merged value is NaN,
provided `other` has the column. -/
def fill_metadata (other : Table) (nr : String × Row) : String × Row :=
  (nr.1, nr.2.map (fun cv =>
    if (cv.1 = "ottoneu_team" ∨ cv.1 = "salary") ∧
        other.cols.contains cv.1 ∧ cv.2 = none
    then (cv.1, cellOf other nr.1 cv.1) else cv))

/-- `_merge_pair` (`src/data/merge.py`, lines 15–39): dedup `other`,
outer-join on name adding only the new columns, then fill the metadata
columns where base's value is NaN.  `merge_hitters`/`merge_pitchers`
(lines 100–104, 130–135) chain this left-to-right starting from the
deduped fantasy table, so earlier sources are the base and win ties. -/
def merge_pair (base other : Table) : Table :=
  ⟨base.cols ++ new_cols base (dedupTable other),
    ((base.rows.map (join_left_row base (dedupTable other))) ++
      (((dedupTable other).rows.filter
        (fun nr => ¬ (base.rows.map Prod.fst).contains nr.1)).map
          (join_right_row base (dedupTable other)))).map
      (fill_metadata (dedupTable other))⟩

/-- `OWNERSHIP_PRUNE_THRESHOLD` (`src/data/merge.py`, line 7). -/
def OWNERSHIP_PRUNE_THRESHOLD : ℚ := 5

/-- Comparison of a nullable cell against a numeric threshold, as pandas
evaluates `ownership_pct <= threshold` (false on NaN). -/
def cell_le (v : Option Cell) (t : ℚ) : Bool :=
  match v with
  | some (Cell.num q) => decide (q ≤ t)
  | _ => false

/-- The drop condition of `_prune_irrelevant_players` (lines 92–96): no
projected points, no historical points, and ownership NaN or at most the
threshold.  When a points column is absent the corresponding condition is
true for every row (the code's all-`True` series). -/
def to_drop (cols : List String) (threshold : ℚ) (nr : String × Row) : Bool :=
  (if cols.contains "proj_fpts" then (getCell nr.2 "proj_fpts").isNone else true) &&
  (if cols.contains "fpts" then (getCell nr.2 "fpts").isNone else true) &&
  ((getCell nr.2 "ownership_pct").isNone || cell_le (getCell nr.2 "ownership_pct") threshold)

/-- `_prune_irrelevant_players` (`src/data/merge.py`, lines 81–97): the
table is returned unchanged when it has no `ownership_pct` column;
otherwise the rows satisfying the drop condition are removed. -/
def prune_irrelevant_players (t : Table) (threshold : ℚ) : Table :=
  if t.cols.contains "ownership_pct" = false then t
  else ⟨t.cols, t.rows.filter (fun nr => ¬ to_drop t.cols threshold nr)⟩

/- ## Lookup lemmas for the merger -/

lemma lookup_append_of_some {β : Type} :
    ∀ (l1 l2 : List (String × β)) (n : String) (v : β),
      l1.lookup n = some v → (l1 ++ l2).lookup n = some v := by
  intro l1 l2 n v h
  induction l1 with
  | nil => simp [List.lookup] at h
  | cons a t ih =>
    rw [List.cons_append]
    rw [List.lookup] at h ⊢
    by_cases hc : n = a.1
    · simpa [hc] using h
    · have hb : (n == a.1) = false := by
        simp [hc]
      rw [hb] at h ⊢
      exact ih h

lemma lookup_map_keyed {β γ : Type} (f : String × β → String × γ)
    (hf : ∀ x, (f x).1 = x.1) :
    ∀ (l : List (String × β)) (n : String) (r : β), l.lookup n = some r →
      (l.map f).lookup n = some (f (n, r)).2 := by
  intro l
  induction l with
  | nil => intro n r h; simp [List.lookup] at h
  | cons a t ih =>
    intro n r h
    rw [List.lookup] at h
    rw [List.map_cons, List.lookup, hf a]
    by_cases hc : n = a.1
    · have hb : (n == a.1) = true := by simp [hc]
      rw [hb] at h ⊢
      obtain rfl : a.2 = r := by simpa using h
      have ha : a = (n, a.2) := by
        rw [hc]
      rw [ha]
    · have hb : (n == a.1) = false := by simp [hc]
      rw [hb] at h ⊢
      exact ih n r h

lemma lookup_map_fn {γ : Type} (v : String → γ) :
    ∀ (cols : List String) (c : String),
      (cols.map (fun x => (x, v x))).lookup c =
        if cols.contains c then some (v c) else none := by
  intro cols
  induction cols with
  | nil => intro c; simp [List.lookup]
  | cons a t ih =>
    intro c
    rw [List.map_cons, List.lookup]
    by_cases hc : c = a
    · subst hc
      simp
    · have hb : (c == a) = false := by simp [hc]
      rw [hb, ih c]
      have hcont : (a :: t).contains c = t.contains c := by
        rw [List.contains_cons, hb]
        simp
      rw [hcont]

lemma lookup_filter_ne {β : Type} (m : String) :
    ∀ (l : List (String × β)) (n : String), n ≠ m →
      (l.filter (fun y => y.1 ≠ m)).lookup n = l.lookup n := by
  intro l
  induction l with
  | nil => intro n _; simp
  | cons a t ih =>
    intro n hn
    by_cases ha : a.1 = m
    · have : (decide (a.1 ≠ m)) = false := by simp [ha]
      rw [List.filter_cons, this]
      simp only [Bool.false_eq_true, if_false]
      rw [ih n hn, List.lookup]
      have hb : (n == a.1) = false := by
        apply beq_eq_false_iff_ne.mpr
        rw [ha]
        exact hn
      rw [hb]
    · have : (decide (a.1 ≠ m)) = true := by simp [ha]
      rw [List.filter_cons, this]
      simp only [if_true]
      rw [List.lookup, List.lookup]
      by_cases hc : n = a.1
      · have hb : (n == a.1) = true := by simp [hc]
        rw [hb]
      · have hb : (n == a.1) = false := by simp [hc]
        rw [hb]
        exact ih n hn

lemma dedupRows_lookup :
    ∀ (l : List (String × Row)) (n : String), (dedupRows l).lookup n = l.lookup n := by
  have key : ∀ (k : ℕ) (l : List (String × Row)), l.length ≤ k →
      ∀ n, (dedupRows l).lookup n = l.lookup n := by
    intro k
    induction k with
    | zero =>
      intro l hl n
      have : l = [] := List.length_eq_zero.mp (Nat.le_zero.mp hl)
      subst this
      rw [dedupRows]
    | succ k ih =>
      intro l hl n
      cases l with
      | nil => rw [dedupRows]
      | cons x t =>
        rw [dedupRows]
        rw [List.lookup, List.lookup]
        by_cases hc : n = x.1
        · have hb : (n == x.1) = true := by simp [hc]
          rw [hb]
        · have hb : (n == x.1) = false := by simp [hc]
          rw [hb]
          have hlen : (t.filter (fun y => y.1 ≠ x.1)).length ≤ k := by
            have h1 := List.length_filter_le (fun y => y.1 ≠ x.1) t
            have h2 : t.length ≤ k := by
              simpa using Nat.lt_succ_iff.mp (Nat.lt_of_lt_of_le (by simp) hl)
            omega
          rw [ih _ hlen n, lookup_filter_ne x.1 t n hc]
  intro l n
  exact key l.length l (le_refl _) n

lemma cellOf_dedupTable (t : Table) (n c : String) :
    cellOf (dedupTable t) n c = cellOf t n c := by
  rw [cellOf, cellOf]
  have hrows : (dedupTable t).rows = dedupRows t.rows := rfl
  rw [hrows, dedupRows_lookup]

lemma lookup_append_of_none {β : Type} :
    ∀ (l1 l2 : List (String × β)) (n : String),
      l1.lookup n = none → (l1 ++ l2).lookup n = l2.lookup n := by
  intro l1 l2 n h
  induction l1 with
  | nil => simp
  | cons a t ih =>
    rw [List.lookup] at h
    rw [List.cons_append, List.lookup]
    by_cases hc : n = a.1
    · have hb : (n == a.1) = true := by simp [hc]
      rw [hb] at h
      exact absurd h (by simp)
    · have hb : (n == a.1) = false := by simp [hc]
      rw [hb] at h ⊢
      exact ih h

lemma contains_iff_mem (l : List String) (c : String) :
    l.contains c = true ↔ c ∈ l :=
  List.elem_iff

lemma join_some {α : Type} (x : Option α) : (some x).join = x := rfl

lemma contains_new_cols (base other : Table) (c : String)
    (hb : base.cols.contains c = false) :
    (new_cols base other).contains c = other.cols.contains c := by
  rcases Bool.eq_false_or_eq_true (other.cols.contains c) with h | h
  · rw [h]
    apply (contains_iff_mem _ _).mpr
    apply List.mem_filter.mpr
    refine ⟨(contains_iff_mem _ _).mp h, ?_⟩
    simp only [decide_eq_true_eq]
    intro hmem
    rw [hb] at hmem
    exact Bool.false_ne_true hmem
  · rw [h, Bool.eq_false_iff]
    intro hcontra
    have hmem := (contains_iff_mem _ _).mp hcontra
    have hmem2 := (List.mem_filter.mp hmem).1
    have hmm := (contains_iff_mem _ _).mpr hmem2
    rw [h] at hmm
    exact Bool.false_ne_true hmm

lemma fill_map_fn (other : Table) (n : String) (v : String → Option Cell)
    (cols : List String) :
    (cols.map (fun c => (c, v c))).map (fun cv =>
      if (cv.1 = "ottoneu_team" ∨ cv.1 = "salary") ∧
          other.cols.contains cv.1 ∧ cv.2 = none
      then (cv.1, cellOf other n cv.1) else cv) =
    cols.map (fun c => (c,
      if (c = "ottoneu_team" ∨ c = "salary") ∧
          other.cols.contains c ∧ v c = none
      then cellOf other n c else v c)) := by
  rw [List.map_map]
  apply List.map_congr_left
  intro c _
  by_cases h : (c = "ottoneu_team" ∨ c = "salary") ∧
      other.cols.contains c ∧ v c = none
  · simp only [Function.comp_apply, if_pos h]
  · simp only [Function.comp_apply, if_neg h]

lemma merge_pair_cell (base other : Table) (n c : String) (r : Row)
    (hn : base.rows.lookup n = some r) :
    cellOf (merge_pair base other) n c =
      if base.cols.contains c then
        (if (c = "ottoneu_team" ∨ c = "salary") ∧
            other.cols.contains c ∧ getCell r c = none
         then cellOf other n c else getCell r c)
      else if other.cols.contains c then cellOf other n c
      else none := by
  have hlk : (merge_pair base other).rows.lookup n =
      some ((fill_metadata (dedupTable other)
        (join_left_row base (dedupTable other) (n, r))).2) := by
    show (((base.rows.map (join_left_row base (dedupTable other))) ++
        (((dedupTable other).rows.filter
          (fun nr => ¬ (base.rows.map Prod.fst).contains nr.1)).map
            (join_right_row base (dedupTable other)))).map
          (fill_metadata (dedupTable other))).lookup n = _
    rw [List.map_append, List.map_map]
    apply lookup_append_of_some
    exact lookup_map_keyed
      (fill_metadata (dedupTable other) ∘ join_left_row base (dedupTable other))
      (fun x => rfl) base.rows n r hn
  rw [cellOf, hlk, Option.map_some', join_some]
  have hrow : (fill_metadata (dedupTable other)
      (join_left_row base (dedupTable other) (n, r))).2 =
      base.cols.map (fun c => (c,
        if (c = "ottoneu_team" ∨ c = "salary") ∧
            (dedupTable other).cols.contains c ∧ getCell r c = none
        then cellOf (dedupTable other) n c else getCell r c)) ++
      (new_cols base (dedupTable other)).map
        (fun c => (c, cellOf (dedupTable other) n c)) := by
    show (base.cols.map (fun c => (c, getCell r c)) ++
        (new_cols base (dedupTable other)).map
          (fun c => (c, cellOf (dedupTable other) n c))).map _ = _
    rw [List.map_append, fill_map_fn, fill_map_fn]
    congr 1
    apply List.map_congr_left
    intro x _
    by_cases h : (x = "ottoneu_team" ∨ x = "salary") ∧
        (dedupTable other).cols.contains x = true ∧
          cellOf (dedupTable other) n x = none
    · rw [if_pos h]
      rfl
    · rw [if_neg h]
  rw [hrow, getCell]
  have hcolsOT : (dedupTable other).cols = other.cols := rfl
  rcases Bool.eq_false_or_eq_true (base.cols.contains c) with hbc | hbc
  · rw [hbc]
    simp only [if_true]
    have h1 : (base.cols.map (fun c => (c,
        if (c = "ottoneu_team" ∨ c = "salary") ∧
            (dedupTable other).cols.contains c ∧ getCell r c = none
        then cellOf (dedupTable other) n c else getCell r c))).lookup c =
        some (if (c = "ottoneu_team" ∨ c = "salary") ∧
            (dedupTable other).cols.contains c ∧ getCell r c = none
          then cellOf (dedupTable other) n c else getCell r c) := by
      rw [lookup_map_fn, hbc]
      simp
    rw [lookup_append_of_some _ _ _ _ h1, join_some, hcolsOT]
    by_cases h : (c = "ottoneu_team" ∨ c = "salary") ∧
        other.cols.contains c = true ∧ getCell r c = none
    · rw [if_pos h, if_pos h, cellOf_dedupTable]
    · rw [if_neg h, if_neg h]
  · rw [hbc]
    simp only [Bool.false_eq_true, if_false]
    have h1 : (base.cols.map (fun c => (c,
        if (c = "ottoneu_team" ∨ c = "salary") ∧
            (dedupTable other).cols.contains c ∧ getCell r c = none
        then cellOf (dedupTable other) n c else getCell r c))).lookup c = none := by
      rw [lookup_map_fn, hbc]
      simp
    rw [lookup_append_of_none _ _ _ h1, lookup_map_fn,
      contains_new_cols base (dedupTable other) c hbc, hcolsOT]
    rcases Bool.eq_false_or_eq_true (other.cols.contains c) with hoc | hoc
    · rw [hoc]
      simp [join_some, cellOf_dedupTable]
    · rw [hoc]
      simp

/- ## Claim theorems: reconciliation merger -/

/-- C4: in a category merge `_merge_pair(base, other)` (as `merge_hitters`
and `merge_pitchers` chain them with the fantasy source as the initial
base, so the fantasy source is the higher-priority base against the
advanced source), for any player present in `base`: a non-null base cell
of a base column — in particular a conflicting non-null salary or team —
is never overwritten; the authoritative-fill fields `ottoneu_team`/`salary`
are taken from `other` only where the base value is null; any other base
column keeps base's value regardless; and columns absent from `base` are
copied from `other`. -/
theorem claim_C4_merge_authority (base other : Table) (n c : String) (r : Row)
    (hn : base.rows.lookup n = some r) :
    (base.cols.contains c = true → cellOf base n c ≠ none →
      cellOf (merge_pair base other) n c = cellOf base n c) ∧
    (base.cols.contains c = true → (c = "ottoneu_team" ∨ c = "salary") →
      other.cols.contains c = true → cellOf base n c = none →
      cellOf (merge_pair base other) n c = cellOf other n c) ∧
    (base.cols.contains c = true → ¬ (c = "ottoneu_team" ∨ c = "salary") →
      cellOf (merge_pair base other) n c = cellOf base n c) ∧
    (base.cols.contains c = false → other.cols.contains c = true →
      cellOf (merge_pair base other) n c = cellOf other n c) := by
  have hbase : cellOf base n c = getCell r c := by
    rw [cellOf, hn, Option.map_some', join_some]
  have hm := merge_pair_cell base other n c r hn
  refine ⟨?_, ?_, ?_, ?_⟩
  · intro hb hnn
    rw [hbase] at hnn
    rw [hm, if_pos hb, if_neg (by intro h; exact hnn h.2.2), hbase]
  · intro hb hfill hoth hnone
    rw [hbase] at hnone
    rw [hm, if_pos hb, if_pos ⟨hfill, hoth, hnone⟩]
  · intro hb hnf
    rw [hm, if_pos hb, if_neg (by intro h; exact hnf h.1), hbase]
  · intro hb hoth
    rw [hm, if_neg (by rw [hb]; exact Bool.false_ne_true), if_pos hoth]

/-- Witness for C4: a player in both the fantasy-style base (salary 10)
and the advanced-style other source (salary 99, plus a new `obp` column). -/
theorem claim_C4_merge_authority_witness :
    ((⟨["salary", "fpts"],
        [("Mike Trout", [("salary", some (Cell.num 10)),
          ("fpts", some (Cell.num 100))])]⟩ : Table).cols.contains "salary" = true →
      cellOf ⟨["salary", "fpts"],
        [("Mike Trout", [("salary", some (Cell.num 10)),
          ("fpts", some (Cell.num 100))])]⟩ "Mike Trout" "salary" ≠ none →
      cellOf (merge_pair
        ⟨["salary", "fpts"],
          [("Mike Trout", [("salary", some (Cell.num 10)),
            ("fpts", some (Cell.num 100))])]⟩
        ⟨["salary", "obp"],
          [("Mike Trout", [("salary", some (Cell.num 99)),
            ("obp", some (Cell.num (1/2)))])]⟩) "Mike Trout" "salary" =
        cellOf ⟨["salary", "fpts"],
          [("Mike Trout", [("salary", some (Cell.num 10)),
            ("fpts", some (Cell.num 100))])]⟩ "Mike Trout" "salary") ∧
    ((⟨["salary", "fpts"],
        [("Mike Trout", [("salary", some (Cell.num 10)),
          ("fpts", some (Cell.num 100))])]⟩ : Table).cols.contains "salary" = true →
      ("salary" = "ottoneu_team" ∨ "salary" = "salary") →
      (⟨["salary", "obp"],
        [("Mike Trout", [("salary", some (Cell.num 99)),
          ("obp", some (Cell.num (1/2)))])]⟩ : Table).cols.contains "salary" = true →
      cellOf ⟨["salary", "fpts"],
        [("Mike Trout", [("salary", some (Cell.num 10)),
          ("fpts", some (Cell.num 100))])]⟩ "Mike Trout" "salary" = none →
      cellOf (merge_pair
        ⟨["salary", "fpts"],
          [("Mike Trout", [("salary", some (Cell.num 10)),
            ("fpts", some (Cell.num 100))])]⟩
        ⟨["salary", "obp"],
          [("Mike Trout", [("salary", some (Cell.num 99)),
            ("obp", some (Cell.num (1/2)))])]⟩) "Mike Trout" "salary" =
        cellOf ⟨["salary", "obp"],
          [("Mike Trout", [("salary", some (Cell.num 99)),
            ("obp", some (Cell.num (1/2)))])]⟩ "Mike Trout" "salary") ∧
    ((⟨["salary", "fpts"],
        [("Mike Trout", [("salary", some (Cell.num 10)),
          ("fpts", some (Cell.num 100))])]⟩ : Table).cols.contains "salary" = true →
      ¬ ("salary" = "ottoneu_team" ∨ "salary" = "salary") →
      cellOf (merge_pair
        ⟨["salary", "fpts"],
          [("Mike Trout", [("salary", some (Cell.num 10)),
            ("fpts", some (Cell.num 100))])]⟩
        ⟨["salary", "obp"],
          [("Mike Trout", [("salary", some (Cell.num 99)),
            ("obp", some (Cell.num (1/2)))])]⟩) "Mike Trout" "salary" =
        cellOf ⟨["salary", "fpts"],
          [("Mike Trout", [("salary", some (Cell.num 10)),
            ("fpts", some (Cell.num 100))])]⟩ "Mike Trout" "salary") ∧
    ((⟨["salary", "fpts"],
        [("Mike Trout", [("salary", some (Cell.num 10)),
          ("fpts", some (Cell.num 100))])]⟩ : Table).cols.contains "salary" = false →
      (⟨["salary", "obp"],
        [("Mike Trout", [("salary", some (Cell.num 99)),
          ("obp", some (Cell.num (1/2)))])]⟩ : Table).cols.contains "salary" = true →
      cellOf (merge_pair
        ⟨["salary", "fpts"],
          [("Mike Trout", [("salary", some (Cell.num 10)),
            ("fpts", some (Cell.num 100))])]⟩
        ⟨["salary", "obp"],
          [("Mike Trout", [("salary", some (Cell.num 99)),
            ("obp", some (Cell.num (1/2)))])]⟩) "Mike Trout" "salary" =
        cellOf ⟨["salary", "obp"],
          [("Mike Trout", [("salary", some (Cell.num 99)),
            ("obp", some (Cell.num (1/2)))])]⟩ "Mike Trout" "salary") :=
  claim_C4_merge_authority
    ⟨["salary", "fpts"],
      [("Mike Trout", [("salary", some (Cell.num 10)),
        ("fpts", some (Cell.num 100))])]⟩
    ⟨["salary", "obp"],
      [("Mike Trout", [("salary", some (Cell.num 99)),
        ("obp", some (Cell.num (1/2)))])]⟩
    "Mike Trout" "salary"
    [("salary", some (Cell.num 10)), ("fpts", some (Cell.num 100))]
    (by decide)

/-- C10: a merged population table with no `ownership_pct` column (no
position-universe source was supplied) passes through the prune step
entirely unchanged: no player is dropped, even one whose projected and
historical points are both null. -/
theorem claim_C10_prune_without_ownership (t : Table) (threshold : ℚ)
    (hcol : t.cols.contains "ownership_pct" = false) :
    prune_irrelevant_players t threshold = t := by
  rw [prune_irrelevant_players, if_pos hcol]

/-- Witness for C10: a one-player table with null projected and historical
points and no ownership column survives pruning unchanged. -/
theorem claim_C10_prune_without_ownership_witness :
    prune_irrelevant_players
      ⟨["proj_fpts", "fpts"], [("A", [("proj_fpts", none), ("fpts", none)])]⟩
      OWNERSHIP_PRUNE_THRESHOLD =
      ⟨["proj_fpts", "fpts"], [("A", [("proj_fpts", none), ("fpts", none)])]⟩ :=
  claim_C10_prune_without_ownership
    ⟨["proj_fpts", "fpts"], [("A", [("proj_fpts", none), ("fpts", none)])]⟩
    OWNERSHIP_PRUNE_THRESHOLD (by decide)

/-- C5: with an `ownership_pct` column present, a record is dropped by the
prune step if and only if its projected points are null, its historical
points are null, and its ownership percentage is null or at most the
threshold (default 5).  The two well-formedness hypotheses state that a
row carries no value for a column its table does not have. -/
theorem claim_C5_prune_rule (t : Table) (threshold : ℚ) (nr : String × Row)
    (hcol : t.cols.contains "ownership_pct" = true)
    (hmem : nr ∈ t.rows)
    (hwfp : t.cols.contains "proj_fpts" = false → getCell nr.2 "proj_fpts" = none)
    (hwfh : t.cols.contains "fpts" = false → getCell nr.2 "fpts" = none) :
    nr ∉ (prune_irrelevant_players t threshold).rows ↔
      (getCell nr.2 "proj_fpts" = none ∧ getCell nr.2 "fpts" = none ∧
        (getCell nr.2 "ownership_pct" = none ∨
          ∃ q, getCell nr.2 "ownership_pct" = some (Cell.num q) ∧ q ≤ threshold)) := by
  have hnotfalse : ¬ (t.cols.contains "ownership_pct" = false) := by
    intro h
    rw [h] at hcol
    exact Bool.false_ne_true hcol
  rw [prune_irrelevant_players, if_neg hnotfalse]
  have hstep : nr ∉ (Table.mk t.cols
      (t.rows.filter (fun x => ¬ to_drop t.cols threshold x))).rows ↔
      to_drop t.cols threshold nr = true := by
    show nr ∉ t.rows.filter (fun x => ¬ to_drop t.cols threshold x) ↔ _
    rw [List.mem_filter]
    simp only [hmem, true_and, decide_not]
    rcases Bool.eq_false_or_eq_true (to_drop t.cols threshold nr) with h | h
    · simp [h]
    · simp [h]
  rw [hstep, to_drop]
  simp only [Bool.and_eq_true, Bool.or_eq_true]
  have hA : ((if t.cols.contains "proj_fpts" then
      (getCell nr.2 "proj_fpts").isNone else true) = true) ↔
      getCell nr.2 "proj_fpts" = none := by
    rcases Bool.eq_false_or_eq_true (t.cols.contains "proj_fpts") with h | h
    · rw [if_pos h]
      exact Option.isNone_iff_eq_none
    · rw [if_neg (by rw [h]; exact Bool.false_ne_true)]
      simp [hwfp h]
  have hB : ((if t.cols.contains "fpts" then
      (getCell nr.2 "fpts").isNone else true) = true) ↔
      getCell nr.2 "fpts" = none := by
    rcases Bool.eq_false_or_eq_true (t.cols.contains "fpts") with h | h
    · rw [if_pos h]
      exact Option.isNone_iff_eq_none
    · rw [if_neg (by rw [h]; exact Bool.false_ne_true)]
      simp [hwfh h]
  have hC : ((getCell nr.2 "ownership_pct").isNone = true ∨
      cell_le (getCell nr.2 "ownership_pct") threshold = true) ↔
      (getCell nr.2 "ownership_pct" = none ∨
        ∃ q, getCell nr.2 "ownership_pct" = some (Cell.num q) ∧ q ≤ threshold) := by
    cases hv : getCell nr.2 "ownership_pct" with
    | none => simp [cell_le]
    | some cell =>
      cases cell with
      | num q => simp [cell_le]
      | str s => simp [cell_le]
  rw [hA, hB, hC]
  exact and_assoc

/-- Witness for C5: at the default threshold 5, a player with no
projection, no historical points and ownership 3 is pruned, while the
otherwise-identical player with ownership 6 is retained. -/
theorem claim_C5_prune_rule_witness :
    ("A", [("proj_fpts", (none : Option Cell)), ("fpts", none),
        ("ownership_pct", some (Cell.num 3))]) ∉
      (prune_irrelevant_players
        ⟨["proj_fpts", "fpts", "ownership_pct"],
          [("A", [("proj_fpts", none), ("fpts", none),
            ("ownership_pct", some (Cell.num 3))]),
           ("B", [("proj_fpts", none), ("fpts", none),
            ("ownership_pct", some (Cell.num 6))])]⟩
        OWNERSHIP_PRUNE_THRESHOLD).rows ∧
    ("B", [("proj_fpts", (none : Option Cell)), ("fpts", none),
        ("ownership_pct", some (Cell.num 6))]) ∈
      (prune_irrelevant_players
        ⟨["proj_fpts", "fpts", "ownership_pct"],
          [("A", [("proj_fpts", none), ("fpts", none),
            ("ownership_pct", some (Cell.num 3))]),
           ("B", [("proj_fpts", none), ("fpts", none),
            ("ownership_pct", some (Cell.num 6))])]⟩
        OWNERSHIP_PRUNE_THRESHOLD).rows := by
  have hA := claim_C5_prune_rule
    ⟨["proj_fpts", "fpts", "ownership_pct"],
      [("A", [("proj_fpts", none), ("fpts", none),
        ("ownership_pct", some (Cell.num 3))]),
       ("B", [("proj_fpts", none), ("fpts", none),
        ("ownership_pct", some (Cell.num 6))])]⟩
    OWNERSHIP_PRUNE_THRESHOLD
    ("A", [("proj_fpts", none), ("fpts", none),
      ("ownership_pct", some (Cell.num 3))])
    (by decide) (by simp) (by decide) (by decide)
  have hB := claim_C5_prune_rule
    ⟨["proj_fpts", "fpts", "ownership_pct"],
      [("A", [("proj_fpts", none), ("fpts", none),
        ("ownership_pct", some (Cell.num 3))]),
       ("B", [("proj_fpts", none), ("fpts", none),
        ("ownership_pct", some (Cell.num 6))])]⟩
    OWNERSHIP_PRUNE_THRESHOLD
    ("B", [("proj_fpts", none), ("fpts", none),
      ("ownership_pct", some (Cell.num 6))])
    (by decide) (by simp) (by decide) (by decide)
  constructor
  · exact hA.mpr ⟨rfl, rfl, Or.inr ⟨3, rfl, by norm_num [OWNERSHIP_PRUNE_THRESHOLD]⟩⟩
  · by_contra hnot
    rcases hB.mp hnot with ⟨_, _, hc⟩
    rcases hc with h | ⟨q, hq, hle⟩
    · exact Option.noConfusion h
    · have hq6 : Cell.num 6 = Cell.num q := Option.some.inj hq
      have h6 : (6:ℚ) = q := by
        injection hq6
      rw [← h6] at hle
      exact absurd hle (by norm_num [OWNERSHIP_PRUNE_THRESHOLD])

/- ## Surplus calculator (`src/valuation/surplus.py`) -/

/-- The three valuation-state columns of one player row, as read by the
surplus calculator. -/
structure PlayerVal where
  dollar_value : Option ℚ
  predicted_price : Option ℚ
  surplus_value : Option ℚ
deriving Repr, DecidableEq

/-- `update_surplus_values` (`src/valuation/surplus.py`, lines 8–20) on one
population table: the SQL
`UPDATE ... SET surplus_value = dollar_value - predicted_price WHERE
dollar_value IS NOT NULL AND predicted_price IS NOT NULL` — rows in which
either operand is NULL are left untouched. -/
def update_surplus_values (rows : List PlayerVal) : List PlayerVal :=
  rows.map (fun r =>
    match r.dollar_value, r.predicted_price with
    | some d, some p => ⟨some d, some p, some (d - p)⟩
    | _, _ => r)

/-- C6: after the surplus calculator runs, every player with non-null
`dollar_value` and non-null `predicted_price` has
`surplus_value = dollar_value − predicted_price`, and every player with a
null operand has null `surplus_value`.  The hypothesis is the state
invariant holding at every call site (`merge_*` initialises all valuation
columns to NULL, `_calc_values` nulls `surplus_value` exactly where
`dollar_value` is null, and `_predict_table` only writes non-null
predictions): a row with a null operand already has null surplus, which
the SQL `WHERE` clause then preserves. -/
theorem claim_C6_surplus_values (rows : List PlayerVal)
    (hinv : ∀ r ∈ rows,
      (r.dollar_value = none ∨ r.predicted_price = none) →
        r.surplus_value = none) :
    ∀ r ∈ update_surplus_values rows,
      (∀ d p, r.dollar_value = some d → r.predicted_price = some p →
        r.surplus_value = some (d - p)) ∧
      ((r.dollar_value = none ∨ r.predicted_price = none) →
        r.surplus_value = none) := by
  intro r hr
  rw [update_surplus_values] at hr
  rcases List.mem_map.mp hr with ⟨r0, hr0, rfl⟩
  obtain ⟨dv, pp, sv⟩ := r0
  cases dv with
  | none =>
    cases pp with
    | none =>
      refine ⟨?_, ?_⟩
      · intro d p hdd _
        exact Option.noConfusion hdd
      · intro _
        exact hinv ⟨none, none, sv⟩ hr0 (Or.inl rfl)
    | some p0 =>
      refine ⟨?_, ?_⟩
      · intro d p hdd _
        exact Option.noConfusion hdd
      · intro _
        exact hinv ⟨none, some p0, sv⟩ hr0 (Or.inl rfl)
  | some d0 =>
    cases pp with
    | none =>
      refine ⟨?_, ?_⟩
      · intro d p _ hpp
        exact Option.noConfusion hpp
      · intro _
        exact hinv ⟨some d0, none, sv⟩ hr0 (Or.inr rfl)
    | some p0 =>
      refine ⟨?_, ?_⟩
      · intro d p hdd hpp
        obtain rfl : d0 = d := Option.some.inj hdd
        obtain rfl : p0 = p := Option.some.inj hpp
        rfl
      · intro hcon
        rcases hcon with h | h <;> exact Option.noConfusion h

/-- Witness for C6: a population of one fully-valued player (10, 4) and
one player with both operands (and surplus) null; the theorem is applied
to the updated first row, whose surplus becomes 6. -/
theorem claim_C6_surplus_values_witness :
    (∀ d p, (⟨some 10, some 4, some 6⟩ : PlayerVal).dollar_value = some d →
      (⟨some 10, some 4, some 6⟩ : PlayerVal).predicted_price = some p →
      (⟨some 10, some 4, some 6⟩ : PlayerVal).surplus_value = some (d - p)) ∧
    (((⟨some 10, some 4, some 6⟩ : PlayerVal).dollar_value = none ∨
      (⟨some 10, some 4, some 6⟩ : PlayerVal).predicted_price = none) →
      (⟨some 10, some 4, some 6⟩ : PlayerVal).surplus_value = none) := by
  have h := claim_C6_surplus_values
    [⟨some 10, some 4, some 0⟩, ⟨none, none, none⟩] (by decide)
  have hmem : (⟨some 10, some 4, some 6⟩ : PlayerVal) ∈
      update_surplus_values [⟨some 10, some 4, some 0⟩, ⟨none, none, none⟩] := by
    have hu : update_surplus_values
        [⟨some 10, some 4, some 0⟩, ⟨none, none, none⟩] =
        [⟨some 10, some 4, some 6⟩, ⟨none, none, none⟩] := by
      norm_num [update_surplus_values]
    rw [hu]
    exact List.mem_cons_self _ _
  exact h _ hmem

/- ## Price predictor (`src/valuation/price_model.py`) -/

/-- `HITTER_FEATURES` (line 16). -/
def HITTER_FEATURES : List String :=
  ["proj_fpts", "proj_wrc_plus", "proj_hr", "proj_sb", "proj_ops"]

/-- `PITCHER_FEATURES` (line 17). -/
def PITCHER_FEATURES : List String :=
  ["proj_fpts", "proj_ip", "proj_era", "proj_k_per_9", "is_closer"]

/-- One row of the `historical_prices` table.  `player_name` stands for the
already-normalized lowercase match key: `normalize_name` itself performs a
Unicode NFD decomposition, which is outside a shallow embedding, so
identity comparison is modelled as key equality. -/
structure HistRow where
  player_name : String
  season : ℤ
  price : Option ℤ
deriving Repr, DecidableEq

/-- `fillna(0)` on a numeric cell (a non-numeric cell also reads as 0; the
source columns involved are numeric). -/
def numOr0 (v : Option Cell) : ℚ :=
  match v with
  | some (Cell.num q) => q
  | _ => 0

/-- Column assignment `df[c] = ...` for a single row: replaces any existing
cell for `c`. -/
def set_cell (r : Row) (c : String) (v : Option Cell) : Row :=
  (c, v) :: r.filter (fun cv => cv.1 ≠ c)

/-- `df.columns` after an assignment `df[c] = ...`: unchanged if the column
exists, appended otherwise. -/
def add_col (cols : List String) (c : String) : List String :=
  if cols.contains c then cols else cols ++ [c]

/-- `_derive_pitcher_features` (lines 20–28): `proj_k_per_9 =
proj_so.fillna(0) / proj_ip.fillna(0) × 9` where `proj_ip > 0`, else 0,
when both source columns exist; an all-zero column when `proj_k_per_9` is
absent; otherwise the table is returned unchanged. -/
def derive_pitcher_features (t : Table) : Table :=
  if t.cols.contains "proj_so" ∧ t.cols.contains "proj_ip" then
    ⟨add_col t.cols "proj_k_per_9",
     t.rows.map (fun nr =>
       (nr.1, set_cell nr.2 "proj_k_per_9" (some (Cell.num
         (if 0 < numOr0 (getCell nr.2 "proj_ip") then
           numOr0 (getCell nr.2 "proj_so") / numOr0 (getCell nr.2 "proj_ip") * 9
         else 0)))))⟩
  else if ¬ t.cols.contains "proj_k_per_9" then
    ⟨add_col t.cols "proj_k_per_9",
     t.rows.map (fun nr =>
       (nr.1, set_cell nr.2 "proj_k_per_9" (some (Cell.num 0))))⟩
  else t

/-- Lines 49–53 of `train_and_predict` (and 190–194 of `_predict_table`):
the binary closer indicator `proj_sv.fillna(0) > 10`, or all zero when the
saves column is absent. -/
def add_is_closer (t : Table) : Table :=
  if t.cols.contains "proj_sv" then
    ⟨add_col t.cols "is_closer",
     t.rows.map (fun nr =>
       (nr.1, set_cell nr.2 "is_closer" (some (Cell.num
         (if 10 < numOr0 (getCell nr.2 "proj_sv") then 1 else 0)))))⟩
  else
    ⟨add_col t.cols "is_closer",
     t.rows.map (fun nr =>
       (nr.1, set_cell nr.2 "is_closer" (some (Cell.num 0))))⟩

/-- Keep-first deduplication by a string key (`drop_duplicates` on the
match key). -/
def dedupBy {α : Type} (key : α → String) : List α → List α
  | [] => []
  | x :: t => x :: dedupBy key (t.filter (fun y => key y ≠ key x))
termination_by l => l.length
decreasing_by
  simp only [List.length_cons]
  exact Nat.lt_succ_of_le (List.length_filter_le _ _)

/-- `_match_players` (lines 141–171): empty result on an empty input or
when none of the population's feature columns exists; otherwise keep, for
each current player whose key carries a historical price, the player's row
together with the most recent season's price (sort by season descending,
keep first per key). -/
def match_players (hist : List HistRow) (players : Table)
    (features : List String) : List (Row × Option ℤ) :=
  if players.rows.isEmpty || hist.isEmpty then []
  else if (features.filter (fun f => players.cols.contains f)).isEmpty then []
  else
    (players.rows.filterMap (fun nr =>
      ((dedupBy (fun h => h.player_name)
          (List.insertionSort (fun a b : HistRow => b.season ≤ a.season) hist)).find?
        (fun h => h.player_name = nr.1)).map (fun h => (nr.2, h.price))))

/-- The row-validity mask of lines 98–101: every feature column the
population actually has is non-null (absent features are zero-filled and
never null), and the price is non-null. -/
def valid_row (cols : List String) (features : List String)
    (rp : Row × Option ℤ) : Bool :=
  (features.all (fun f => !cols.contains f || !(getCell rp.1 f).isNone)) &&
    rp.2.isSome

/-- The number of valid training rows `len(X)` checked at line 103: hitter
and pitcher matches pooled, after the NaN mask. -/
def valid_training_count (hist : List HistRow) (hitters pitchers : Table) : ℕ :=
  ((match_players (hist.filter (fun h => h.price.isSome)) hitters
      HITTER_FEATURES).filter
    (valid_row hitters.cols HITTER_FEATURES)).length +
  ((match_players (hist.filter (fun h => h.price.isSome))
      (add_is_closer (derive_pitcher_features pitchers)) PITCHER_FEATURES).filter
    (valid_row (add_is_closer (derive_pitcher_features pitchers)).cols
      PITCHER_FEATURES)).length

/-- The feature vector of `_predict_table` lines 196–200: for every name in
the unified feature ordering, the row's value with `fillna(0)` when the
column exists, 0 otherwise. -/
def feature_vec (cols : List String) (r : Row) (names : List String) : List ℚ :=
  names.map (fun f => if cols.contains f then numOr0 (getCell r f) else 0)

/-- `_predict_table` (lines 174–220) abstracted over the fitted pipeline:
`raw` stands for `model.predict ∘ scaler.transform` (sklearn
floating-point code, outside the embedding; every theorem below holds for
every such function).  Predictions are written only for players with a
non-null `proj_fpts`, clipped to 0 and rounded; with duplicate names the
last written prediction wins, as with successive SQL `UPDATE ... WHERE
name = ?`. -/
def predict_table (raw : List ℚ → ℚ) (feature_names : List String)
    (t : Table) : Table :=
  ⟨t.cols,
   t.rows.map (fun nr =>
     match ((t.rows.filterMap (fun pr =>
         if t.cols.contains "proj_fpts" ∧ (getCell pr.2 "proj_fpts").isSome then
           some (pr.1, (roundHalfEven (max 0 (raw (feature_vec t.cols pr.2
             feature_names))) : ℤ))
         else none)).reverse).lookup nr.1 with
     | some pred => (nr.1, set_cell nr.2 "predicted_price"
         (some (Cell.num (pred : ℚ))))
     | none => nr)⟩

/-- The database state `train_and_predict` reads and writes. -/
structure DB where
  hitters : Table
  pitchers : Table
  historical_prices : List HistRow
deriving Repr, DecidableEq

/-- `all_feature_names` (line 86): hitter features then the pitcher
features not already present. -/
def all_feature_names : List String :=
  HITTER_FEATURES ++ PITCHER_FEATURES.filter (fun f => ¬ HITTER_FEATURES.contains f)

/-- `train_and_predict` (`src/valuation/price_model.py`, lines 31–138) as a
state transformer, abstracted over the fitted prediction pipeline `raw`.
All three `raise` sites occur before any database write, so each error
branch returns the state unchanged; the success branch writes
`predicted_price` in both tables and recomputes surplus (surplus is kept
on its own table type elsewhere, predictions here). -/
def train_and_predict (raw : List ℚ → ℚ) (db : DB) : DB × Except String Unit :=
  if (db.historical_prices.filter (fun h => h.price.isSome)).isEmpty then
    (db, Except.error
      "No draft data available. Place draft_results.csv in the data directory.")
  else if (match_players (db.historical_prices.filter (fun h => h.price.isSome))
        db.hitters HITTER_FEATURES).isEmpty ∧
      (match_players (db.historical_prices.filter (fun h => h.price.isSome))
        (add_is_closer (derive_pitcher_features db.pitchers))
        PITCHER_FEATURES).isEmpty then
    (db, Except.error
      "No players matched between historical data and current projections.")
  else if valid_training_count db.historical_prices db.hitters db.pitchers < 10 then
    (db, Except.error ("Only " ++
      toString (valid_training_count db.historical_prices db.hitters db.pitchers) ++
      " valid training samples. Need at least 10."))
  else
    ({ db with
        hitters := predict_table raw all_feature_names db.hitters
        pitchers := predict_table raw all_feature_names
          (add_is_closer (derive_pitcher_features
            (add_is_closer (derive_pitcher_features db.pitchers)))) },
      Except.ok ())

/-- C7: whenever fewer than 10 valid training rows (all population
features non-null, price non-null) exist after matching history to current
players, `train_and_predict` fails with a fatal error — it never silently
skips — and the database state, in particular every existing
`predicted_price` in both population tables, is exactly as before the
call: all three raise sites precede any write. -/
theorem claim_C7_insufficient_training (raw : List ℚ → ℚ) (db : DB)
    (hlt : valid_training_count db.historical_prices db.hitters db.pitchers < 10) :
    (train_and_predict raw db).1 = db ∧
    ∃ msg, (train_and_predict raw db).2 = Except.error msg := by
  rw [train_and_predict]
  by_cases h1 : (db.historical_prices.filter (fun h => h.price.isSome)).isEmpty = true
  · rw [if_pos h1]
    exact ⟨rfl, _, rfl⟩
  · rw [if_neg h1]
    by_cases h2 : (match_players (db.historical_prices.filter (fun h => h.price.isSome))
          db.hitters HITTER_FEATURES).isEmpty = true ∧
        (match_players (db.historical_prices.filter (fun h => h.price.isSome))
          (add_is_closer (derive_pitcher_features db.pitchers))
          PITCHER_FEATURES).isEmpty = true
    · rw [if_pos h2]
      exact ⟨rfl, _, rfl⟩
    · rw [if_neg h2, if_pos hlt]
      exact ⟨rfl, _, rfl⟩

/-- Witness for C7: no historical prices at all, hence 0 valid training
rows; training errors and the database is unchanged. -/
theorem claim_C7_insufficient_training_witness :
    (train_and_predict (fun _ => 0)
        ⟨⟨["proj_fpts"], [("A", [("proj_fpts", some (Cell.num 1))])]⟩,
         ⟨["proj_fpts"], [("P", [("proj_fpts", some (Cell.num 1))])]⟩, []⟩).1 =
      ⟨⟨["proj_fpts"], [("A", [("proj_fpts", some (Cell.num 1))])]⟩,
       ⟨["proj_fpts"], [("P", [("proj_fpts", some (Cell.num 1))])]⟩, []⟩ ∧
    ∃ msg, (train_and_predict (fun _ => 0)
        ⟨⟨["proj_fpts"], [("A", [("proj_fpts", some (Cell.num 1))])]⟩,
         ⟨["proj_fpts"], [("P", [("proj_fpts", some (Cell.num 1))])]⟩, []⟩).2 =
      Except.error msg :=
  claim_C7_insufficient_training (fun _ => 0)
    ⟨⟨["proj_fpts"], [("A", [("proj_fpts", some (Cell.num 1))])]⟩,
     ⟨["proj_fpts"], [("P", [("proj_fpts", some (Cell.num 1))])]⟩, []⟩
    (by decide)

/- ## Draft actions (`src/db/queries.py`) -/

/-- One row of a population table as the draft queries touch it. -/
structure PlayerD where
  name : String
  salary : Option ℤ
  is_drafted : Bool
  draft_price : Option ℤ
deriving Repr, DecidableEq

/-- One row of the append-only `draft_log` table (`src/db/schema.py`,
lines 3–13); `id` is the AUTOINCREMENT primary key. -/
structure LogEntry where
  id : ℕ
  player_name : String
  player_type : String
  projected_salary : Option ℤ
  draft_price : ℤ
  drafting_team : String
deriving Repr, DecidableEq

/-- The two population tables the UI passes to `draft_player` /
`undo_last_draft` (the `table` argument is always the literal `"hitters"`
or `"pitchers"`). -/
inductive PopTable where
  | hitters
  | pitchers
deriving Repr, DecidableEq

/-- `player_type = "hitter" if table == "hitters" else "pitcher"`
(line 86). -/
def player_type : PopTable → String
  | PopTable.hitters => "hitter"
  | PopTable.pitchers => "pitcher"

/-- The draft database state. -/
structure DraftDB where
  hitters : List PlayerD
  pitchers : List PlayerD
  draft_log : List LogEntry
  next_id : ℕ
deriving Repr, DecidableEq

/-- The rows of the selected population table. -/
def get_table (db : DraftDB) : PopTable → List PlayerD
  | PopTable.hitters => db.hitters
  | PopTable.pitchers => db.pitchers

/-- Replace the rows of the selected population table. -/
def set_table (db : DraftDB) : PopTable → List PlayerD → DraftDB
  | PopTable.hitters, rows => { db with hitters := rows }
  | PopTable.pitchers, rows => { db with pitchers := rows }

/-- `SELECT salary FROM {table} WHERE name = ?` then `fetchone` (lines
74–77): the first matching row's salary, `None` when no row matches. -/
def lookup_salary (rows : List PlayerD) (name : String) : Option ℤ :=
  match rows.find? (fun p => p.name = name) with
  | some p => p.salary
  | none => none

/-- `UPDATE {table} SET is_drafted = 1, draft_price = ? WHERE name = ?`
(lines 80–83). -/
def mark_drafted (rows : List PlayerD) (name : String) (price : ℤ) :
    List PlayerD :=
  rows.map (fun p =>
    if p.name = name then ⟨p.name, p.salary, true, some price⟩ else p)

/-- `UPDATE {table} SET is_drafted = 0, draft_price = NULL WHERE name = ?`
(lines 112–115). -/
def unmark_drafted (rows : List PlayerD) (name : String) : List PlayerD :=
  rows.map (fun p =>
    if p.name = name then ⟨p.name, p.salary, false, none⟩ else p)

/-- `draft_player` (`src/db/queries.py`, lines 64–93): look up the
projected salary, flip the draft-state fields of every row with the
player's name, and append one log entry with the next AUTOINCREMENT id. -/
def draft_player (db : DraftDB) (tbl : PopTable) (player_name : String)
    (draft_price : ℤ) (drafting_team : String) : DraftDB :=
  { set_table db tbl (mark_drafted (get_table db tbl) player_name draft_price) with
      draft_log := db.draft_log ++
        [⟨db.next_id, player_name, player_type tbl,
          lookup_salary (get_table db tbl) player_name, draft_price,
          drafting_team⟩],
      next_id := db.next_id + 1 }

/-- `SELECT * FROM draft_log ORDER BY id DESC LIMIT 1` (lines 100–102):
the entry with the largest id (ids are unique; on a tie the earlier entry
is kept). -/
def max_id_entry : List LogEntry → Option LogEntry
  | [] => none
  | e :: t =>
    match max_id_entry t with
    | none => some e
    | some m => if m.id ≤ e.id then some e else some m

/-- `undo_last_draft` (`src/db/queries.py`, lines 96–119): no-op returning
`none` on an empty log; otherwise revert the logged player's draft-state
fields in the logged population and delete the log entry by id. -/
def undo_last_draft (db : DraftDB) : DraftDB × Option String :=
  match max_id_entry db.draft_log with
  | none => (db, none)
  | some last =>
    let tbl := if last.player_type = "hitter" then PopTable.hitters
      else PopTable.pitchers
    ({ set_table db tbl (unmark_drafted (get_table db tbl) last.player_name) with
        draft_log := db.draft_log.filter (fun e => e.id ≠ last.id) },
      some last.player_name)

lemma max_id_entry_append (l : List LogEntry) (e : LogEntry)
    (h : ∀ x ∈ l, x.id < e.id) : max_id_entry (l ++ [e]) = some e := by
  induction l with
  | nil => simp [max_id_entry]
  | cons a t ih =>
    rw [List.cons_append, max_id_entry,
      ih (fun x hx => h x (List.mem_cons_of_mem a hx))]
    have ha : ¬ (e.id ≤ a.id) := by
      have := h a (List.mem_cons_self a t)
      omega
    simp [ha]

lemma log_restore (l : List LogEntry) (e : LogEntry)
    (h : ∀ x ∈ l, x.id < e.id) :
    (l ++ [e]).filter (fun x => x.id ≠ e.id) = l := by
  rw [List.filter_append]
  have h1 : l.filter (fun x => decide (x.id ≠ e.id)) = l := by
    apply List.filter_eq_self.mpr
    intro x hx
    have := h x hx
    simp only [decide_eq_true_eq]
    omega
  have h2 : [e].filter (fun x => decide (x.id ≠ e.id)) = [] := by simp
  rw [h1, h2, List.append_nil]

lemma unmark_fields (rows : List PlayerD) (name : String) :
    ∀ p ∈ unmark_drafted rows name, p.name = name →
      p.is_drafted = false ∧ p.draft_price = none := by
  intro p hp hn
  rw [unmark_drafted] at hp
  rcases List.mem_map.mp hp with ⟨p0, _, rfl⟩
  by_cases h : p0.name = name
  · simp [h]
  · rw [if_neg h] at hn ⊢
    exact absurd hn h

/-- C8: drafting an undrafted player and immediately undoing returns the
player's name, restores `is_drafted = false` and `draft_price = NULL` on
every row with that name, and leaves the draft log exactly as before the
draft (zero entries for the action); on an empty log, `undo` returns
`none` and changes nothing.  The hypothesis is the AUTOINCREMENT
invariant: every logged id is smaller than the next id. -/
theorem claim_C8_draft_undo (db : DraftDB) (tbl : PopTable) (name : String)
    (price : ℤ) (team : String)
    (hid : ∀ e ∈ db.draft_log, e.id < db.next_id) :
    ((undo_last_draft (draft_player db tbl name price team)).2 = some name ∧
     (∀ p ∈ get_table (undo_last_draft (draft_player db tbl name price team)).1 tbl,
        p.name = name → p.is_drafted = false ∧ p.draft_price = none) ∧
     (undo_last_draft (draft_player db tbl name price team)).1.draft_log =
       db.draft_log) ∧
    (db.draft_log = [] → undo_last_draft db = (db, none)) := by
  constructor
  · cases tbl with
    | hitters =>
      have hmax : max_id_entry (draft_player db PopTable.hitters name price team).draft_log =
          some (⟨db.next_id, name, "hitter", lookup_salary db.hitters name,
            price, team⟩ : LogEntry) := by
        exact max_id_entry_append db.draft_log
          (⟨db.next_id, name, "hitter", lookup_salary db.hitters name,
            price, team⟩ : LogEntry)
          (fun x hx => hid x hx)
      have hundo : undo_last_draft (draft_player db PopTable.hitters name price team) =
          ({ hitters := unmark_drafted (mark_drafted db.hitters name price) name,
             pitchers := db.pitchers,
             draft_log := (db.draft_log ++
               [(⟨db.next_id, name, "hitter", lookup_salary db.hitters name,
                 price, team⟩ : LogEntry)]).filter
               (fun e => e.id ≠ db.next_id),
             next_id := db.next_id + 1 }, some name) := by
        rw [undo_last_draft, hmax]
        rfl
      rw [hundo]
      refine ⟨rfl, ?_, ?_⟩
      · exact unmark_fields _ name
      · exact log_restore db.draft_log
          (⟨db.next_id, name, "hitter", lookup_salary db.hitters name,
            price, team⟩ : LogEntry)
          (fun x hx => hid x hx)
    | pitchers =>
      have hmax : max_id_entry (draft_player db PopTable.pitchers name price team).draft_log =
          some (⟨db.next_id, name, "pitcher", lookup_salary db.pitchers name,
            price, team⟩ : LogEntry) := by
        exact max_id_entry_append db.draft_log
          (⟨db.next_id, name, "pitcher", lookup_salary db.pitchers name,
            price, team⟩ : LogEntry)
          (fun x hx => hid x hx)
      have hundo : undo_last_draft (draft_player db PopTable.pitchers name price team) =
          ({ hitters := db.hitters,
             pitchers := unmark_drafted (mark_drafted db.pitchers name price) name,
             draft_log := (db.draft_log ++
               [(⟨db.next_id, name, "pitcher", lookup_salary db.pitchers name,
                 price, team⟩ : LogEntry)]).filter
               (fun e => e.id ≠ db.next_id),
             next_id := db.next_id + 1 }, some name) := by
        rw [undo_last_draft, hmax]
        rfl
      rw [hundo]
      refine ⟨rfl, ?_, ?_⟩
      · exact unmark_fields _ name
      · exact log_restore db.draft_log
          (⟨db.next_id, name, "pitcher", lookup_salary db.pitchers name,
            price, team⟩ : LogEntry)
          (fun x hx => hid x hx)
  · intro hempty
    have hmax : max_id_entry db.draft_log = none := by
      rw [hempty, max_id_entry]
    rw [undo_last_draft, hmax]

/-- Witness for C8: `draft("hitters", "Mike Trout", 40, "Team A")`
followed by `undo()` on a one-hitter database with an empty log. -/
theorem claim_C8_draft_undo_witness :
    ((undo_last_draft (draft_player
        ⟨[⟨"Mike Trout", some 5, false, none⟩], [], [], 1⟩
        PopTable.hitters "Mike Trout" 40 "Team A")).2 = some "Mike Trout" ∧
     (∀ p ∈ get_table (undo_last_draft (draft_player
          ⟨[⟨"Mike Trout", some 5, false, none⟩], [], [], 1⟩
          PopTable.hitters "Mike Trout" 40 "Team A")).1 PopTable.hitters,
        p.name = "Mike Trout" → p.is_drafted = false ∧ p.draft_price = none) ∧
     (undo_last_draft (draft_player
        ⟨[⟨"Mike Trout", some 5, false, none⟩], [], [], 1⟩
        PopTable.hitters "Mike Trout" 40 "Team A")).1.draft_log =
       (⟨[⟨"Mike Trout", some 5, false, none⟩], [], [], 1⟩ : DraftDB).draft_log) ∧
    ((⟨[⟨"Mike Trout", some 5, false, none⟩], [], [], 1⟩ : DraftDB).draft_log = [] →
      undo_last_draft ⟨[⟨"Mike Trout", some 5, false, none⟩], [], [], 1⟩ =
        (⟨[⟨"Mike Trout", some 5, false, none⟩], [], [], 1⟩, none)) :=
  claim_C8_draft_undo ⟨[⟨"Mike Trout", some 5, false, none⟩], [], [], 1⟩
    PopTable.hitters "Mike Trout" 40 "Team A" (by decide)

/- ## File ingestion (`src/valuation/historical.py`, `src/data/positions.py`) -/

/-- Python `str.lower()` modelled character-wise. -/
def py_lower (s : String) : String :=
  ⟨s.data.map Char.toLower⟩

/-- The whitespace characters Python's `str.strip()` removes (the forms
occurring in CSV headers and cells). -/
def is_space (c : Char) : Bool :=
  c = ' ' ∨ c = '\t' ∨ c = '\n' ∨ c = '\r'

/-- Python `str.strip()` modelled character-wise. -/
def py_strip (s : String) : String :=
  ⟨((s.data.dropWhile is_space).reverse.dropWhile is_space).reverse⟩

/-- Python `str.lstrip("$")`. -/
def py_lstrip_dollar (s : String) : String :=
  ⟨s.data.dropWhile (fun c => c = '$')⟩

/-- Python `str.rstrip("%")`. -/
def py_rstrip_pct (s : String) : String :=
  ⟨(s.data.reverse.dropWhile (fun c => c = '%')).reverse⟩

/-- Substring containment over character lists. -/
def contains_chars : List Char → List Char → Bool
  | [], needle => needle.isEmpty
  | c :: t, needle => needle.isPrefixOf (c :: t) || contains_chars t needle

/-- Python `needle in hay` on strings. -/
def str_contains (hay needle : String) : Bool :=
  contains_chars hay.data needle.data

/-- Python `str.startswith`. -/
def py_startswith (s pre : String) : Bool :=
  pre.data.isPrefixOf s.data

/-- Python `int(s)` on an optionally signed decimal string; `none` mirrors
the `ValueError` path. -/
def parse_int_str (s : String) : Option ℤ :=
  match s.data with
  | [] => none
  | '-' :: ds =>
    if ds ≠ [] ∧ ds.all Char.isDigit then
      some (-(ds.foldl (fun acc c => acc * 10 + (c.toNat - '0'.toNat)) 0 : ℕ))
    else none
  | ds =>
    if ds.all Char.isDigit then
      some ((ds.foldl (fun acc c => acc * 10 + (c.toNat - '0'.toNat)) 0 : ℕ) : ℤ)
    else none

/-- Python `float(s)` on an optionally signed decimal string with at most
one point (the forms a CSV export contains); `none` mirrors the
`ValueError` path. -/
def parse_decimal_str (s : String) : Option ℚ :=
  match s.splitOn "." with
  | [a] => (parse_int_str a).map (fun i => (i : ℚ))
  | [a, b] =>
    if b.data ≠ [] ∧ b.data.all Char.isDigit then
      (parse_int_str a).map (fun i =>
        let frac : ℚ := (b.data.foldl
          (fun acc c => acc * 10 + (c.toNat - '0'.toNat)) 0 : ℕ) / (10 ^ b.length : ℕ)
        if i < 0 then (i : ℚ) - frac else (i : ℚ) + frac)
    else none
  | _ => none

/-- A raw uploaded CSV: its header list and its rows, each row's cells
keyed by header. -/
structure RawCsv where
  cols : List String
  rows : List Row
deriving Repr, DecidableEq

/-- Python `str(cell)` (`str(nan) = "nan"`). -/
def cell_to_str (v : Option Cell) : String :=
  match v with
  | none => "nan"
  | some (Cell.str s) => s
  | some (Cell.num q) => toString q

/-- `_find_column` of `src/valuation/historical.py` (lines 60–67):
first candidate having an exactly matching column. -/
def find_column (columns : List String) (candidates : List String) :
    Option String :=
  candidates.findSome? (fun cand => columns.find? (fun col => col = cand))

/-- `_find_column` of `src/data/positions.py` (lines 8–15): first column
whose lowercased text contains one of the patterns. -/
def find_column_sub (columns : List String) (patterns : List String) :
    Option String :=
  columns.find? (fun col => patterns.any (fun p => str_contains (py_lower col) p))

/-- Truncation toward zero: Python `int(float)`. -/
def truncQ (q : ℚ) : ℤ :=
  if 0 ≤ q then ⌊q⌋ else ⌈q⌉

/-- One parsed FA-auction record (`parse_auction_csv`, lines 49–55). -/
structure AuctionRow where
  player_name : String
  season : ℤ
  price : Option ℤ
  position : Option String
  auction_date : Option String
deriving Repr, DecidableEq

/-- The price parsing of `parse_auction_csv` lines 36–44: NaN → `None`;
otherwise strip a leading currency symbol and whitespace and take
`int(float(...))`, `None` on failure. -/
def parse_price_cell (v : Option Cell) : Option ℤ :=
  match v with
  | none => none
  | some (Cell.num q) => some (truncQ q)
  | some (Cell.str s) =>
    (parse_decimal_str (py_strip (py_lstrip_dollar (py_strip s)))).map truncQ

/-- `parse_auction_csv` (`src/valuation/historical.py`, lines 6–57):
normalize headers to lowercase, find the identity and price columns by
exact-candidate matching — failing with the source's fixed messages when
absent, before any row is produced — then build one record per row with a
non-empty, non-`nan` name. -/
def parse_auction_csv (file : RawCsv) (season : ℤ) :
    Except String (List AuctionRow) :=
  match find_column (file.cols.map (fun c => py_lower (py_strip c)))
      ["name", "player", "player_name", "player name"] with
  | none => Except.error
      "Could not find player name column. Expected: Name, Player, or Player Name"
  | some name_col =>
    match find_column (file.cols.map (fun c => py_lower (py_strip c)))
        ["price", "salary", "cost", "$", "winning bid"] with
    | none => Except.error
        "Could not find price column. Expected: Price, Salary, Cost, or $"
    | some price_col =>
      Except.ok ((file.rows.map (fun r =>
          r.map (fun cv => (py_lower (py_strip cv.1), cv.2)))).filterMap (fun r =>
        if py_strip (cell_to_str (getCell r name_col)) = "" ∨
            py_lower (py_strip (cell_to_str (getCell r name_col))) = "nan" then
          none
        else some
          ⟨py_strip (cell_to_str (getCell r name_col)), season,
           parse_price_cell (getCell r price_col),
           (find_column (file.cols.map (fun c => py_lower (py_strip c)))
              ["position", "pos", "positions"]).bind (fun c =>
             (getCell r c).map (fun v => py_strip (cell_to_str (some v)))),
           (find_column (file.cols.map (fun c => py_lower (py_strip c)))
              ["date", "auction_date", "auction date"]).bind (fun c =>
             (getCell r c).map (fun v => py_strip (cell_to_str (some v))))⟩))

/-- `_parse_salary` (`src/data/load.py`, lines 131–141) on a cell: strip a
currency symbol, then `int(...)`; a numeric cell passes through when its
string form is an integer (a fractional value fails `int`), anything
unparseable becomes NA. -/
def parse_salary (v : Option Cell) : Option Cell :=
  match v with
  | none => none
  | some (Cell.num q) => if q.den = 1 then some (Cell.num q) else none
  | some (Cell.str s) =>
    if py_strip (py_lstrip_dollar (py_strip s)) = "" then none
    else (parse_int_str (py_strip (py_lstrip_dollar (py_strip s)))).map
      (fun i => Cell.num (i : ℚ))

/-- `_parse_ownership` (`src/data/positions.py`, lines 18–28): strip a
trailing percent sign, then `float(...)`, NA on failure. -/
def parse_ownership (v : Option Cell) : Option Cell :=
  match v with
  | none => none
  | some (Cell.num q) => some (Cell.num q)
  | some (Cell.str s) =>
    if py_strip (py_rstrip_pct (py_strip s)) = "" then none
    else (parse_decimal_str (py_strip (py_rstrip_pct (py_strip s)))).map Cell.num

/-- pandas `.str.strip()`: strings trimmed, non-strings become NaN. -/
def str_strip_cell (v : Option Cell) : Option Cell :=
  match v with
  | some (Cell.str s) => some (Cell.str (py_strip s))
  | _ => none

/-- The team normalisation of `load_position_universe` lines 68–71:
`str(v).strip()` when non-null and non-empty, NA otherwise. -/
def team_cell (v : Option Cell) : Option Cell :=
  match v with
  | none => none
  | some c =>
    if py_strip (cell_to_str (some c)) = "" then none
    else some (Cell.str (py_strip (cell_to_str (some c))))

/-- `load_position_universe` (`src/data/positions.py`, lines 31–88): drop
`Unnamed` columns, discover the logical columns by header-substring
patterns, fail — naming the headers actually found — when no name column
matches, and otherwise build the standardized name-keyed table
(rows without a name dropped, first occurrence kept per name). -/
def load_position_universe (file : RawCsv) : Except String Table :=
  match find_column_sub (file.cols.filter (fun c => ¬ py_startswith c "Unnamed"))
      ["name"] with
  | none => Except.error ("Could not find Name column. Found: " ++
      toString (file.cols.filter (fun c => ¬ py_startswith c "Unnamed")))
  | some name_col =>
    Except.ok
      ⟨["position", "ottoneu_team", "salary", "ownership_pct"],
       dedupRows ((file.rows.filter
          (fun r => ¬ (getCell r name_col).isNone)).map (fun r =>
        (match getCell r name_col with
          | some (Cell.str s) => py_strip s
          | v => cell_to_str v,
         [("position",
            match find_column_sub (file.cols.filter
                (fun c => ¬ py_startswith c "Unnamed")) ["pos"] with
            | some c => str_strip_cell (getCell r c)
            | none => none),
          ("ottoneu_team",
            match find_column_sub (file.cols.filter
                (fun c => ¬ py_startswith c "Unnamed")) ["fantasy", "team"] with
            | some c => team_cell (getCell r c)
            | none => none),
          ("salary",
            match find_column_sub (file.cols.filter
                (fun c => ¬ py_startswith c "Unnamed")) ["$"] with
            | some c => parse_salary (getCell r c)
            | none => none),
          ("ownership_pct",
            match find_column_sub (file.cols.filter
                (fun c => ¬ py_startswith c "Unnamed")) ["own", "rost"] with
            | some c => parse_ownership (getCell r c)
            | none => none)])))⟩

/-- C9, counterexample to the claim as stated: an auction export with
headers `Player, Team` and no price column aborts with the parser's fixed
message, but that message names neither the source file (the parser is
never given a file name) nor the headers actually found — `Team` does not
occur in it. -/
theorem claim_C9_counterexample :
    parse_auction_csv ⟨["Player", "Team"], []⟩ 2024 =
      Except.error
        "Could not find price column. Expected: Price, Salary, Cost, or $" ∧
    str_contains
      "Could not find price column. Expected: Price, Salary, Cost, or $"
      "Team" = false ∧
    str_contains
      "Could not find price column. Expected: Price, Salary, Cost, or $"
      "team" = false := by
  refine ⟨by rfl, by decide, by decide⟩

/-- C9 (amended): a missing identity or price column is a fatal error
raised before any row is produced.  The auction parser's messages name the
expected candidate headers but neither the source file nor the headers
found; the position-universe loader's message does include the headers
actually found (though not the file name). -/
theorem claim_C9_missing_column_errors (file1 file2 file3 : RawCsv)
    (season : ℤ) (nc : String)
    (h1 : find_column (file1.cols.map (fun c => py_lower (py_strip c)))
        ["name", "player", "player_name", "player name"] = none)
    (h2name : find_column (file2.cols.map (fun c => py_lower (py_strip c)))
        ["name", "player", "player_name", "player name"] = some nc)
    (h2price : find_column (file2.cols.map (fun c => py_lower (py_strip c)))
        ["price", "salary", "cost", "$", "winning bid"] = none)
    (h3 : find_column_sub (file3.cols.filter (fun c => ¬ py_startswith c "Unnamed"))
        ["name"] = none) :
    parse_auction_csv file1 season = Except.error
      "Could not find player name column. Expected: Name, Player, or Player Name" ∧
    parse_auction_csv file2 season = Except.error
      "Could not find price column. Expected: Price, Salary, Cost, or $" ∧
    load_position_universe file3 = Except.error
      ("Could not find Name column. Found: " ++
        toString (file3.cols.filter (fun c => ¬ py_startswith c "Unnamed"))) := by
  refine ⟨?_, ?_, ?_⟩
  · rw [parse_auction_csv, h1]
  · rw [parse_auction_csv, h2name, h2price]
  · rw [load_position_universe, h3]

/-- Witness for the amended C9: three concrete exports — one with no
identity column, one with identity but no price column, one position file
with no header containing "name". -/
theorem claim_C9_missing_column_errors_witness :
    parse_auction_csv ⟨["Team"], []⟩ 2024 = Except.error
      "Could not find player name column. Expected: Name, Player, or Player Name" ∧
    parse_auction_csv ⟨["Player", "Team"], []⟩ 2024 = Except.error
      "Could not find price column. Expected: Price, Salary, Cost, or $" ∧
    load_position_universe ⟨["Tm"], []⟩ = Except.error
      ("Could not find Name column. Found: " ++
        toString ((⟨["Tm"], []⟩ : RawCsv).cols.filter
          (fun c => ¬ py_startswith c "Unnamed"))) :=
  claim_C9_missing_column_errors ⟨["Team"], []⟩ ⟨["Player", "Team"], []⟩
    ⟨["Tm"], []⟩ 2024 "player" (by decide) (by decide) (by decide) (by decide)
